import Mathlib

/-!
Shallow embedding of the borealis-banhammer engine (`src/banhammer.rs`):
the identity registry, association graph, threshold policy
(`check_error_ban`), ban transition (`ban_progression` / `read_input`)
and decay clock (`tick`), together with theorems settling the frozen
claims about the specification.

Identity value types (`IpAddr`, `Address`, `Token` from the out-of-scope
decoder module) are modelled as `Nat`: the engine only compares, hashes
and stores them.  Rust `u32` counters and thresholds are modelled as
`Nat` (the claims never approach the 2^32 wrap, and debug Rust aborts on
overflow).  `HashMap` is modelled extensionally as an association list
with unique keys; `Instant`/`Duration` as `Nat` seconds, the only use of
the clock (`time.elapsed()`) becoming an explicit `elapsed` argument.
Rust panics (`expect`) are modelled by `Option`: `none` is a panic.
-/

namespace Banhammer

abbrev IpAddr := Nat
abbrev Address := Nat
abbrev Token := Nat

/-- Association-list model of Rust's `HashMap`. -/
abbrev Map (κ α : Type) : Type := List (κ × α)

namespace Map

def find? {κ α : Type} [DecidableEq κ] (m : Map κ α) (k : κ) : Option α :=
  match m with
  | [] => none
  | (k', v) :: rest => if k' = k then some v else find? rest k

def contains {κ α : Type} [DecidableEq κ] (m : Map κ α) (k : κ) : Bool :=
  (m.find? k).isSome

/-- Remove every binding of key `k` (a `HashMap` holds at most one). -/
def erase {κ α : Type} [DecidableEq κ] (m : Map κ α) (k : κ) : Map κ α :=
  match m with
  | [] => []
  | p :: rest => if p.1 = k then erase rest k else p :: erase rest k

/-- Insert, replacing any previous binding of `k`. -/
def insert {κ α : Type} [DecidableEq κ] (m : Map κ α) (k : κ) (v : α) : Map κ α :=
  (k, v) :: m.erase k

end Map

/-- `BanProgress` (banhammer.rs): per-violation-kind counters plus the
revert-message list. -/
structure BanProgress where
  incorrect_nonce : Nat
  max_gas : Nat
  revert : List String
  excessive_gas : Nat
deriving DecidableEq, Repr

def BanProgress.default : BanProgress :=
  { incorrect_nonce := 0, max_gas := 0, revert := [], excessive_gas := 0 }

/-- `BanKind` (banhammer.rs): the reason tag a banned record may carry. -/
inductive BanKind where
  | IncorrectNonce
  | MaxGas
  | Revert (msg : String)
  | ExcessiveGas (n : Nat)
deriving DecidableEq, Repr

/-- `UserClient` (banhammer.rs): registry entry on the client axis. -/
structure UserClient where
  tokens : List Token
  froms : List Address
  ban_progress : BanProgress
  banned : Option BanKind
deriving DecidableEq, Repr

def UserClient.default : UserClient :=
  { tokens := [], froms := [], ban_progress := BanProgress.default, banned := none }

/-- `UserFrom` (banhammer.rs): registry entry on the sender axis. -/
structure UserFrom where
  clients : List IpAddr
  tokens : List Token
  ban_progress : BanProgress
  banned : Option BanKind
deriving DecidableEq, Repr

def UserFrom.default : UserFrom :=
  { clients := [], tokens := [], ban_progress := BanProgress.default, banned := none }

/-- `UserToken` (banhammer.rs): registry entry on the token axis. -/
structure UserToken where
  clients : List IpAddr
  froms : List Address
  ban_progress : BanProgress
  banned : Option BanKind
deriving DecidableEq, Repr

def UserToken.default : UserToken :=
  { clients := [], froms := [], ban_progress := BanProgress.default, banned := none }

/-- `BanList` (banhammer.rs): the three terminal ban-store tables. -/
structure BanList where
  clients : Map IpAddr UserClient
  tokens : Map Token UserToken
  froms : Map Address UserFrom
deriving DecidableEq

def BanList.default : BanList := { clients := [], tokens := [], froms := [] }

/-- `TransactionError` from the decoder module `de.rs` (not under `src/`);
its variants are fully determined by the exhaustive match in
`check_error_ban`.  The `Relayer` payload is opaque to the engine and
modelled as a `String`. -/
inductive TransactionError where
  | ErrIncorrectNonce
  | MaxGas
  | Revert (msg : String)
  | Relayer (e : String)
deriving DecidableEq, Repr

/-- `Config` (banhammer.rs): decay timeframe, per-kind base thresholds
and the token multiplier. -/
structure Config where
  timeframe : Nat
  incorrect_nonce_threshold : Nat
  max_gas_threshold : Nat
  revert_threshold : Nat
  token_multiplier : Nat
deriving DecidableEq, Repr

/-- `User` (banhammer.rs): the identities carried by one event. -/
structure User where
  client : IpAddr
  fromAddr : Address
  token : Option Token
deriving DecidableEq, Repr

/-- `RelayerInput.params` from `de.rs`: only the `from` field is read by
the engine (`input.params.from`). -/
structure TransactionParams where
  fromAddr : Address
deriving DecidableEq, Repr

/-- `RelayerInput` from `de.rs` (not under `src/`): the fields the engine
reads are `client`, `params.from`, `token`, `error`. -/
structure RelayerInput where
  client : IpAddr
  params : TransactionParams
  token : Option Token
  error : Option TransactionError
deriving DecidableEq, Repr

/-- The engine state `Banhammer` (banhammer.rs). -/
structure State where
  next_check : Nat
  user_clients : Map IpAddr UserClient
  user_froms : Map Address UserFrom
  user_tokens : Map Token UserToken
  ban_list : BanList
  config : Config
deriving DecidableEq

/-- `Banhammer::new`. -/
def new (config : Config) : State :=
  { next_check := config.timeframe
    user_clients := []
    user_froms := []
    user_tokens := []
    ban_list := BanList.default
    config := config }

/-- `check_error_ban` (banhammer.rs:167): the threshold policy.  The Rust
`&mut BanProgress` out-parameter becomes the first component of the
result; the returned `bool` is the ban decision. -/
def check_error_ban (ban_progress : BanProgress) (config : Config)
    (token : Option Token) (maybe_error : Option TransactionError) :
    BanProgress × Bool :=
  match maybe_error with
  | none => (ban_progress, false)
  | some error =>
    match error with
    | TransactionError.ErrIncorrectNonce =>
      let threshold :=
        if token.isSome then
          config.incorrect_nonce_threshold * config.token_multiplier
        else
          config.incorrect_nonce_threshold
      let p := { ban_progress with incorrect_nonce := ban_progress.incorrect_nonce + 1 }
      (p, decide (p.incorrect_nonce ≥ threshold))
    | TransactionError.MaxGas =>
      let threshold :=
        if token.isSome then
          config.max_gas_threshold * config.token_multiplier
        else
          config.max_gas_threshold
      let p := { ban_progress with max_gas := ban_progress.max_gas + 1 }
      (p, decide (p.max_gas ≥ threshold))
    | TransactionError.Revert msg =>
      let threshold :=
        if token.isSome then
          config.revert_threshold * config.token_multiplier
        else
          config.revert_threshold
      let p := { ban_progress with revert := ban_progress.revert ++ [msg] }
      (p, decide (p.max_gas ≥ threshold))
    | TransactionError.Relayer _ => (ban_progress, false)

/-- `Banhammer::tick` (banhammer.rs:228).  `elapsed` is the value of
`time.elapsed()`: the duration since the caller's reference instant. -/
def tick (b : State) (elapsed : Nat) : State :=
  if b.next_check < elapsed then
    { b with
      user_clients := b.user_clients.map
        (fun p => (p.1, { p.2 with ban_progress := BanProgress.default }))
      next_check := b.next_check + b.config.timeframe }
  else
    b

/-- The client-axis block of `Banhammer::ban_progression`
(banhammer.rs:248): skipped when the client is already in the ban list;
a missing registry entry is the Rust panic, modelled as `none`. -/
def client_axis (b : State) (client : IpAddr) (token : Option Token)
    (maybe_error : Option TransactionError) : Option (State × Bool) :=
  if !(b.ban_list.clients.contains client) then
    match b.user_clients.find? client with
    | none => none
    | some uc =>
      let r := check_error_ban uc.ban_progress b.config token maybe_error
      some ({ b with user_clients :=
                b.user_clients.insert client { uc with ban_progress := r.1 } },
            r.2)
  else
    some (b, false)

/-- The sender-axis block of `Banhammer::ban_progression`
(banhammer.rs:259). -/
def from_axis (b : State) (fromAddr : Address) (token : Option Token)
    (maybe_error : Option TransactionError) : Option (State × Bool) :=
  if !(b.ban_list.froms.contains fromAddr) then
    match b.user_froms.find? fromAddr with
    | none => none
    | some uf =>
      let r := check_error_ban uf.ban_progress b.config token maybe_error
      some ({ b with user_froms :=
                b.user_froms.insert fromAddr { uf with ban_progress := r.1 } },
            r.2)
  else
    some (b, false)

/-- The token-axis block of `Banhammer::ban_progression`
(banhammer.rs:270): runs only when the event carries a token. -/
def token_axis (b : State) (token : Option Token)
    (maybe_error : Option TransactionError) : Option (State × Bool) :=
  match token with
  | some tok =>
    if !(b.ban_list.tokens.contains tok) then
      match b.user_tokens.find? tok with
      | none => none
      | some ut =>
        let r := check_error_ban ut.ban_progress b.config (some tok) maybe_error
        some ({ b with user_tokens :=
                  b.user_tokens.insert tok { ut with ban_progress := r.1 } },
              r.2)
    else
      some (b, false)
  | none => some (b, false)

/-- `Banhammer::ban_progression` (banhammer.rs:240): evaluate the three
axes in order, threading the state; `none` models a panic. -/
def ban_progression (b : State) (user : User) (token : Option Token)
    (maybe_error : Option TransactionError) :
    Option (State × Bool × Bool × Bool) :=
  match client_axis b user.client token maybe_error with
  | none => none
  | some (b, is_client_banned) =>
    match from_axis b user.fromAddr token maybe_error with
    | none => none
    | some (b, is_from_banned) =>
      match token_axis b token maybe_error with
      | none => none
      | some (b, is_token_banned) =>
        some (b, is_client_banned, is_from_banned, is_token_banned)

/-- `Banhammer::associate_with_user_client` (banhammer.rs:290):
`entry(client).or_insert_with(default)` then conditional pushes. -/
def associate_with_user_client (b : State) (client : IpAddr)
    (fromAddr : Address) (maybe_token : Option Token) : State :=
  let user_client := (b.user_clients.find? client).getD UserClient.default
  let user_client :=
    if user_client.froms.contains fromAddr then user_client
    else { user_client with froms := user_client.froms ++ [fromAddr] }
  let user_client :=
    match maybe_token with
    | some token =>
      if user_client.tokens.contains token then user_client
      else { user_client with tokens := user_client.tokens ++ [token] }
    | none => user_client
  { b with user_clients := b.user_clients.insert client user_client }

/-- `Banhammer::associate_with_user_from` (banhammer.rs:312). -/
def associate_with_user_from (b : State) (fromAddr : Address)
    (client : IpAddr) (maybe_token : Option Token) : State :=
  let user_from := (b.user_froms.find? fromAddr).getD UserFrom.default
  let user_from :=
    if user_from.clients.contains client then user_from
    else { user_from with clients := user_from.clients ++ [client] }
  let user_from :=
    match maybe_token with
    | some token =>
      if user_from.tokens.contains token then user_from
      else { user_from with tokens := user_from.tokens ++ [token] }
    | none => user_from
  { b with user_froms := b.user_froms.insert fromAddr user_from }

/-- `Banhammer::associate_with_user_token` (banhammer.rs:334). -/
def associate_with_user_token (b : State) (token : Token)
    (client : IpAddr) (fromAddr : Address) : State :=
  let user_token := (b.user_tokens.find? token).getD UserToken.default
  let user_token :=
    if user_token.clients.contains client then user_token
    else { user_token with clients := user_token.clients ++ [client] }
  let user_token :=
    if user_token.froms.contains fromAddr then user_token
    else { user_token with froms := user_token.froms ++ [fromAddr] }
  { b with user_tokens := b.user_tokens.insert token user_token }

/-- The `println!` ban announcements of `read_input`, reified as data:
each names the identity and the triggering error. -/
inductive Notification where
  | bannedClient (client : IpAddr) (reason : TransactionError)
  | bannedFrom (fromAddr : Address) (reason : TransactionError)
  | bannedToken (token : Token) (reason : TransactionError)
deriving DecidableEq, Repr

/-- The `if is_client_banned` block of `read_input` (banhammer.rs:366):
announce, remove from the registry, insert into the ban store.  The two
`expect`s (error present, entry present) are modelled as `none`. -/
def apply_client_ban (b : State) (client : IpAddr) (is_client_banned : Bool)
    (maybe_error : Option TransactionError) : Option (State × List Notification) :=
  if is_client_banned then
    match maybe_error, b.user_clients.find? client with
    | some err, some user_client =>
      some ({ b with
                user_clients := b.user_clients.erase client
                ban_list := { b.ban_list with
                  clients := b.ban_list.clients.insert client user_client } },
            [Notification.bannedClient client err])
    | _, _ => none
  else
    some (b, [])

/-- The `if is_from_banned` block of `read_input` (banhammer.rs:378). -/
def apply_from_ban (b : State) (fromAddr : Address) (is_from_banned : Bool)
    (maybe_error : Option TransactionError) : Option (State × List Notification) :=
  if is_from_banned then
    match maybe_error, b.user_froms.find? fromAddr with
    | some err, some user_from =>
      some ({ b with
                user_froms := b.user_froms.erase fromAddr
                ban_list := { b.ban_list with
                  froms := b.ban_list.froms.insert fromAddr user_from } },
            [Notification.bannedFrom fromAddr err])
    | _, _ => none
  else
    some (b, [])

/-- The `if is_token_banned` block of `read_input` (banhammer.rs:390);
`user.token.expect` is a further modelled panic. -/
def apply_token_ban (b : State) (token : Option Token) (is_token_banned : Bool)
    (maybe_error : Option TransactionError) : Option (State × List Notification) :=
  if is_token_banned then
    match token, maybe_error with
    | some tok, some err =>
      match b.user_tokens.find? tok with
      | some user_token =>
        some ({ b with
                  user_tokens := b.user_tokens.erase tok
                  ban_list := { b.ban_list with
                    tokens := b.ban_list.tokens.insert tok user_token } },
              [Notification.bannedToken tok err])
      | none => none
    | _, _ => none
  else
    some (b, [])

/-- `Banhammer::read_input` (banhammer.rs:349): associate on all three
axes, run the ban progression, then apply any ban transitions.  Returns
the new state and the emitted notifications; `none` models a panic. -/
def read_input (b : State) (input : RelayerInput) : Option (State × List Notification) :=
  let maybe_error := input.error
  let user : User :=
    { client := input.client, fromAddr := input.params.fromAddr, token := input.token }
  let b := associate_with_user_client b user.client user.fromAddr user.token
  let b := associate_with_user_from b user.fromAddr user.client user.token
  let b :=
    match user.token with
    | some token => associate_with_user_token b token user.client user.fromAddr
    | none => b
  match ban_progression b user user.token maybe_error with
  | none => none
  | some (b, is_client_banned, is_from_banned, is_token_banned) =>
    match apply_client_ban b user.client is_client_banned maybe_error with
    | none => none
    | some (b, ns₁) =>
      match apply_from_ban b user.fromAddr is_from_banned maybe_error with
      | none => none
      | some (b, ns₂) =>
        match apply_token_ban b user.token is_token_banned maybe_error with
        | none => none
        | some (b, ns₃) => some (b, ns₁ ++ ns₂ ++ ns₃)

/-- Spec §8: effective threshold is `base × token multiplier` when a token
identity is present, else `base`. -/
def effectiveThreshold (base multiplier : Nat) (tokenPresent : Bool) : Nat :=
  if tokenPresent then base * multiplier else base

/-- Spec-side ban condition from the §4.2 policy table: the counter
relevant to the violation kind, after this event's update, reaches or
exceeds its effective threshold (Revert reads the max-gas counter, which
the event does not increment — the documented coupling). -/
def relevantCounterReaches (p : BanProgress) (cfg : Config) (tokenPresent : Bool) :
    Option TransactionError → Bool
  | some TransactionError.ErrIncorrectNonce =>
    decide (p.incorrect_nonce + 1 ≥
      effectiveThreshold cfg.incorrect_nonce_threshold cfg.token_multiplier tokenPresent)
  | some TransactionError.MaxGas =>
    decide (p.max_gas + 1 ≥
      effectiveThreshold cfg.max_gas_threshold cfg.token_multiplier tokenPresent)
  | some (TransactionError.Revert _) =>
    decide (p.max_gas ≥
      effectiveThreshold cfg.revert_threshold cfg.token_multiplier tokenPresent)
  | some (TransactionError.Relayer _) => false
  | none => false

/-- The association phase of `read_input` (banhammer.rs:357-361). -/
def associate_all (b : State) (i : RelayerInput) : State :=
  let b := associate_with_user_client b i.client i.params.fromAddr i.token
  let b := associate_with_user_from b i.params.fromAddr i.client i.token
  match i.token with
  | some token => associate_with_user_token b token i.client i.params.fromAddr
  | none => b

/-! ### Registry entries as seen before an event -/

/-- The client entry `read_input` evaluates: the existing one, or the
fresh default created by association. -/
def clientEntryBefore (b : State) (c : IpAddr) : UserClient :=
  (b.user_clients.find? c).getD UserClient.default

def fromEntryBefore (b : State) (f : Address) : UserFrom :=
  (b.user_froms.find? f).getD UserFrom.default

def tokenEntryBefore (b : State) (t : Token) : UserToken :=
  (b.user_tokens.find? t).getD UserToken.default

/-- Spec §3: association lists contain no duplicate values, on every
axis of the active registry. -/
def State.assocListsNodup (b : State) : Prop :=
  (∀ k uc, b.user_clients.find? k = some uc → uc.froms.Nodup ∧ uc.tokens.Nodup) ∧
  (∀ k uf, b.user_froms.find? k = some uf → uf.clients.Nodup ∧ uf.tokens.Nodup) ∧
  (∀ k ut, b.user_tokens.find? k = some ut → ut.clients.Nodup ∧ ut.froms.Nodup)

/-! ### Concrete fixtures for witnesses and counterexamples -/

/-- Configuration with incorrect-nonce threshold 1: the first bad-nonce
event bans. -/
def cfgA : Config :=
  { timeframe := 60, incorrect_nonce_threshold := 1, max_gas_threshold := 5,
    revert_threshold := 5, token_multiplier := 2 }

/-- Configuration with all thresholds 5: a single event never bans. -/
def cfgB : Config :=
  { timeframe := 60, incorrect_nonce_threshold := 5, max_gas_threshold := 5,
    revert_threshold := 5, token_multiplier := 2 }

/-- Configuration whose incorrect-nonce threshold is zero (spec §6: zero
is claimed to mean "disabled"). -/
def cfgZ : Config :=
  { timeframe := 60, incorrect_nonce_threshold := 0, max_gas_threshold := 5,
    revert_threshold := 5, token_multiplier := 2 }

/-- Event: client 0, sender 10, no token, incorrect nonce. -/
def evA1 : RelayerInput :=
  { client := 0, params := { fromAddr := 10 }, token := none,
    error := some TransactionError.ErrIncorrectNonce }

/-- Event: client 0 again, sender 11, no token, no violation. -/
def evA2 : RelayerInput :=
  { client := 0, params := { fromAddr := 11 }, token := none, error := none }

def stA1 : State := ((read_input (new cfgA) evA1).getD (new cfgA, [])).1

def nsA1 : List Notification := ((read_input (new cfgA) evA1).getD (new cfgA, [])).2

def stA2 : State := ((read_input stA1 evA2).getD (stA1, [])).1

def nsA2 : List Notification := ((read_input stA1 evA2).getD (stA1, [])).2

def stB : State := ((read_input (new cfgB) evA1).getD (new cfgB, [])).1

def nsB : List Notification := ((read_input (new cfgB) evA1).getD (new cfgB, [])).2

def ucB : UserClient := (stB.user_clients.find? 0).getD UserClient.default

/-! ### Map lemmas -/

namespace Map

theorem find?_erase_self {κ α : Type} [DecidableEq κ] (m : Map κ α) (k : κ) :
    (m.erase k).find? k = none := by
  induction m with
  | nil => rfl
  | cons p rest ih =>
    by_cases hp : p.1 = k
    · simpa [Map.erase, hp] using ih
    · simpa [Map.erase, hp, Map.find?] using ih

theorem find?_erase_ne {κ α : Type} [DecidableEq κ] (m : Map κ α) (k k' : κ)
    (h : k' ≠ k) : (m.erase k).find? k' = m.find? k' := by
  have h' : k ≠ k' := Ne.symm h
  induction m with
  | nil => rfl
  | cons p rest ih =>
    by_cases hp : p.1 = k
    · simpa [Map.erase, hp, Map.find?, h'] using ih
    · by_cases hq : p.1 = k'
      · simp [Map.erase, hp, Map.find?, hq, h]
      · simpa [Map.erase, hp, Map.find?, hq] using ih

theorem find?_insert_self {κ α : Type} [DecidableEq κ] (m : Map κ α) (k : κ) (v : α) :
    (m.insert k v).find? k = some v := by
  simp [Map.insert, Map.find?]

theorem find?_insert_ne {κ α : Type} [DecidableEq κ] (m : Map κ α) (k k' : κ) (v : α)
    (h : k' ≠ k) : (m.insert k v).find? k' = m.find? k' := by
  have hne : ¬ k = k' := fun hc => h hc.symm
  simp only [Map.insert, Map.find?, if_neg hne]
  exact find?_erase_ne m k k' h

theorem contains_insert_self {κ α : Type} [DecidableEq κ] (m : Map κ α) (k : κ) (v : α) :
    (m.insert k v).contains k = true := by
  simp [Map.contains, find?_insert_self]

theorem contains_insert_of_contains {κ α : Type} [DecidableEq κ] (m : Map κ α)
    (k k' : κ) (v : α) (h : m.contains k' = true) :
    (m.insert k v).contains k' = true := by
  by_cases hk : k' = k
  · subst hk; exact contains_insert_self m k' v
  · simpa [Map.contains, find?_insert_ne m k k' v hk] using h

theorem find?_mapVal {κ α : Type} [DecidableEq κ] (m : Map κ α) (f : α → α) (k : κ) :
    Map.find? (List.map (fun p => (p.1, f p.2)) m) k = (m.find? k).map f := by
  induction m with
  | nil => rfl
  | cons p rest ih =>
    by_cases hp : p.1 = k
    · simp [Map.find?, hp]
    · simpa [Map.find?, hp] using ih

end Map

/-! ### Threshold policy: spec-side condition and `check_error_ban` facts -/


theorem check_error_ban_none (p : BanProgress) (cfg : Config) (tok : Option Token) :
    check_error_ban p cfg tok none = (p, false) := rfl

theorem check_error_ban_relayer (p : BanProgress) (cfg : Config) (tok : Option Token)
    (s : String) :
    check_error_ban p cfg tok (some (TransactionError.Relayer s)) = (p, false) := rfl

/-- The ban decision of `check_error_ban` coincides with the spec-side
policy-table condition. -/
theorem check_error_ban_flag (p : BanProgress) (cfg : Config) (tok : Option Token)
    (err : Option TransactionError) :
    (check_error_ban p cfg tok err).2 = relevantCounterReaches p cfg tok.isSome err := by
  cases err with
  | none => rfl
  | some e =>
    cases e <;> simp [check_error_ban, relevantCounterReaches, effectiveThreshold]

/-- `check_error_ban` never decides to ban on an absent or relayer-internal
error signal. -/
theorem check_error_ban_flag_some (p : BanProgress) (cfg : Config) (tok : Option Token)
    (err : Option TransactionError) (h : (check_error_ban p cfg tok err).2 = true) :
    ∃ e, err = some e ∧ (∀ s, e ≠ TransactionError.Relayer s) := by
  cases err with
  | none => simp [check_error_ban] at h
  | some e =>
    refine ⟨e, rfl, ?_⟩
    intro s hs
    subst hs
    simp [check_error_ban] at h

/-! ### Characterization of the per-axis ban checks -/

/-- A banned client axis is skipped: no progress mutation, no ban flag. -/
theorem client_axis_skip (b : State) (c : IpAddr) (tok : Option Token)
    (err : Option TransactionError) (h : b.ban_list.clients.contains c = true) :
    client_axis b c tok err = some (b, false) := by
  simp [client_axis, h]

theorem client_axis_some (b : State) (c : IpAddr) (tok : Option Token)
    (err : Option TransactionError) (b₁ : State) (r : Bool)
    (h : client_axis b c tok err = some (b₁, r)) :
    (b.ban_list.clients.contains c = true ∧ b₁ = b ∧ r = false) ∨
    (b.ban_list.clients.contains c = false ∧
      ∃ uc, b.user_clients.find? c = some uc ∧
        b₁ = { b with user_clients := b.user_clients.insert c ({ uc with ban_progress := (check_error_ban uc.ban_progress b.config tok err).1 }) } ∧
        r = (check_error_ban uc.ban_progress b.config tok err).2) := by
  by_cases hb : b.ban_list.clients.contains c
  · left
    rw [client_axis_skip b c tok err hb] at h
    obtain ⟨h1, h2⟩ := Prod.mk.injEq .. ▸ Option.some.injEq .. ▸ h
    exact ⟨hb, h1.symm, h2.symm⟩
  · right
    refine ⟨by simpa using hb, ?_⟩
    rcases hf : b.user_clients.find? c with _ | uc
    · simp [client_axis, hb, hf] at h
    · refine ⟨uc, rfl, ?_⟩
      simp only [client_axis, hb, hf, Bool.not_false, if_true] at h
      obtain ⟨h1, h2⟩ := Prod.mk.injEq .. ▸ Option.some.injEq .. ▸ h
      exact ⟨h1.symm, h2.symm⟩

theorem from_axis_skip (b : State) (f : Address) (tok : Option Token)
    (err : Option TransactionError) (h : b.ban_list.froms.contains f = true) :
    from_axis b f tok err = some (b, false) := by
  simp [from_axis, h]

theorem from_axis_some (b : State) (f : Address) (tok : Option Token)
    (err : Option TransactionError) (b₁ : State) (r : Bool)
    (h : from_axis b f tok err = some (b₁, r)) :
    (b.ban_list.froms.contains f = true ∧ b₁ = b ∧ r = false) ∨
    (b.ban_list.froms.contains f = false ∧
      ∃ uf, b.user_froms.find? f = some uf ∧
        b₁ = { b with user_froms := b.user_froms.insert f ({ uf with ban_progress := (check_error_ban uf.ban_progress b.config tok err).1 }) } ∧
        r = (check_error_ban uf.ban_progress b.config tok err).2) := by
  by_cases hb : b.ban_list.froms.contains f
  · left
    rw [from_axis_skip b f tok err hb] at h
    obtain ⟨h1, h2⟩ := Prod.mk.injEq .. ▸ Option.some.injEq .. ▸ h
    exact ⟨hb, h1.symm, h2.symm⟩
  · right
    refine ⟨by simpa using hb, ?_⟩
    rcases hf : b.user_froms.find? f with _ | uf
    · simp [from_axis, hb, hf] at h
    · refine ⟨uf, rfl, ?_⟩
      simp only [from_axis, hb, hf, Bool.not_false, if_true] at h
      obtain ⟨h1, h2⟩ := Prod.mk.injEq .. ▸ Option.some.injEq .. ▸ h
      exact ⟨h1.symm, h2.symm⟩

theorem token_axis_none (b : State) (err : Option TransactionError) :
    token_axis b none err = some (b, false) := rfl

theorem token_axis_skip (b : State) (t : Token) (err : Option TransactionError)
    (h : b.ban_list.tokens.contains t = true) :
    token_axis b (some t) err = some (b, false) := by
  simp [token_axis, h]

theorem token_axis_some (b : State) (tok : Option Token)
    (err : Option TransactionError) (b₁ : State) (r : Bool)
    (h : token_axis b tok err = some (b₁, r)) :
    (tok = none ∧ b₁ = b ∧ r = false) ∨
    (∃ t, tok = some t ∧ b.ban_list.tokens.contains t = true ∧ b₁ = b ∧ r = false) ∨
    (∃ t, tok = some t ∧ b.ban_list.tokens.contains t = false ∧
      ∃ ut, b.user_tokens.find? t = some ut ∧
        b₁ = { b with user_tokens := b.user_tokens.insert t ({ ut with ban_progress := (check_error_ban ut.ban_progress b.config (some t) err).1 }) } ∧
        r = (check_error_ban ut.ban_progress b.config (some t) err).2) := by
  rcases tok with _ | t
  · left
    rw [token_axis_none b err] at h
    obtain ⟨h1, h2⟩ := Prod.mk.injEq .. ▸ Option.some.injEq .. ▸ h
    exact ⟨rfl, h1.symm, h2.symm⟩
  · by_cases hb : b.ban_list.tokens.contains t
    · right; left
      rw [token_axis_skip b t err hb] at h
      obtain ⟨h1, h2⟩ := Prod.mk.injEq .. ▸ Option.some.injEq .. ▸ h
      exact ⟨t, rfl, hb, h1.symm, h2.symm⟩
    · right; right
      refine ⟨t, rfl, by simpa using hb, ?_⟩
      rcases hf : b.user_tokens.find? t with _ | ut
      · simp [token_axis, hb, hf] at h
      · refine ⟨ut, rfl, ?_⟩
        simp only [token_axis, hb, hf, Bool.not_false, if_true] at h
        obtain ⟨h1, h2⟩ := Prod.mk.injEq .. ▸ Option.some.injEq .. ▸ h
        exact ⟨h1.symm, h2.symm⟩

/-- Frame of the client-axis check: it writes nothing but `user_clients`. -/
theorem client_axis_frame (b : State) (c : IpAddr) (tok : Option Token)
    (err : Option TransactionError) (b₁ : State) (r : Bool)
    (h : client_axis b c tok err = some (b₁, r)) :
    b₁.ban_list = b.ban_list ∧ b₁.user_froms = b.user_froms ∧
    b₁.user_tokens = b.user_tokens ∧ b₁.config = b.config ∧
    b₁.next_check = b.next_check := by
  rcases client_axis_some b c tok err b₁ r h with ⟨_, hb, _⟩ | ⟨_, uc, _, hb, _⟩ <;>
    subst hb <;> exact ⟨rfl, rfl, rfl, rfl, rfl⟩

theorem from_axis_frame (b : State) (f : Address) (tok : Option Token)
    (err : Option TransactionError) (b₁ : State) (r : Bool)
    (h : from_axis b f tok err = some (b₁, r)) :
    b₁.ban_list = b.ban_list ∧ b₁.user_clients = b.user_clients ∧
    b₁.user_tokens = b.user_tokens ∧ b₁.config = b.config ∧
    b₁.next_check = b.next_check := by
  rcases from_axis_some b f tok err b₁ r h with ⟨_, hb, _⟩ | ⟨_, uf, _, hb, _⟩ <;>
    subst hb <;> exact ⟨rfl, rfl, rfl, rfl, rfl⟩

theorem token_axis_frame (b : State) (tok : Option Token)
    (err : Option TransactionError) (b₁ : State) (r : Bool)
    (h : token_axis b tok err = some (b₁, r)) :
    b₁.ban_list = b.ban_list ∧ b₁.user_clients = b.user_clients ∧
    b₁.user_froms = b.user_froms ∧ b₁.config = b.config ∧
    b₁.next_check = b.next_check := by
  rcases token_axis_some b tok err b₁ r h with ⟨_, hb, _⟩ | ⟨t, _, _, hb, _⟩ |
    ⟨t, _, _, ut, _, hb, _⟩ <;> subst hb <;> exact ⟨rfl, rfl, rfl, rfl, rfl⟩

/-! ### Association lemmas -/

theorem associate_with_user_client_frame (b : State) (c : IpAddr) (f : Address)
    (t : Option Token) :
    (associate_with_user_client b c f t).user_froms = b.user_froms ∧
    (associate_with_user_client b c f t).user_tokens = b.user_tokens ∧
    (associate_with_user_client b c f t).ban_list = b.ban_list ∧
    (associate_with_user_client b c f t).config = b.config ∧
    (associate_with_user_client b c f t).next_check = b.next_check :=
  ⟨rfl, rfl, rfl, rfl, rfl⟩

theorem associate_with_user_from_frame (b : State) (f : Address) (c : IpAddr)
    (t : Option Token) :
    (associate_with_user_from b f c t).user_clients = b.user_clients ∧
    (associate_with_user_from b f c t).user_tokens = b.user_tokens ∧
    (associate_with_user_from b f c t).ban_list = b.ban_list ∧
    (associate_with_user_from b f c t).config = b.config ∧
    (associate_with_user_from b f c t).next_check = b.next_check :=
  ⟨rfl, rfl, rfl, rfl, rfl⟩

theorem associate_with_user_token_frame (b : State) (t : Token) (c : IpAddr)
    (f : Address) :
    (associate_with_user_token b t c f).user_clients = b.user_clients ∧
    (associate_with_user_token b t c f).user_froms = b.user_froms ∧
    (associate_with_user_token b t c f).ban_list = b.ban_list ∧
    (associate_with_user_token b t c f).config = b.config ∧
    (associate_with_user_token b t c f).next_check = b.next_check :=
  ⟨rfl, rfl, rfl, rfl, rfl⟩

/-- Association creates/updates the client entry but never touches its
ban progress or its ban tag. -/
theorem associate_with_user_client_self (b : State) (c : IpAddr) (f : Address)
    (t : Option Token) :
    ((associate_with_user_client b c f t).user_clients.find? c).map
        (fun uc => (uc.ban_progress, uc.banned)) =
      some (((b.user_clients.find? c).getD UserClient.default).ban_progress,
            ((b.user_clients.find? c).getD UserClient.default).banned) := by
  unfold associate_with_user_client
  rcases t with _ | tok <;> simp only [Map.find?_insert_self, Option.map_some'] <;>
    split_ifs <;> rfl

theorem associate_with_user_from_self (b : State) (f : Address) (c : IpAddr)
    (t : Option Token) :
    ((associate_with_user_from b f c t).user_froms.find? f).map
        (fun uf => (uf.ban_progress, uf.banned)) =
      some (((b.user_froms.find? f).getD UserFrom.default).ban_progress,
            ((b.user_froms.find? f).getD UserFrom.default).banned) := by
  unfold associate_with_user_from
  rcases t with _ | tok <;> simp only [Map.find?_insert_self, Option.map_some'] <;>
    split_ifs <;> rfl

theorem associate_with_user_token_self (b : State) (t : Token) (c : IpAddr)
    (f : Address) :
    ((associate_with_user_token b t c f).user_tokens.find? t).map
        (fun ut => (ut.ban_progress, ut.banned)) =
      some (((b.user_tokens.find? t).getD UserToken.default).ban_progress,
            ((b.user_tokens.find? t).getD UserToken.default).banned) := by
  unfold associate_with_user_token
  simp only [Map.find?_insert_self, Option.map_some']
  split_ifs <;> rfl

theorem associate_with_user_client_other (b : State) (c : IpAddr) (f : Address)
    (t : Option Token) (k : IpAddr) (h : k ≠ c) :
    (associate_with_user_client b c f t).user_clients.find? k =
      b.user_clients.find? k := by
  unfold associate_with_user_client
  exact Map.find?_insert_ne _ c k _ h

theorem associate_with_user_from_other (b : State) (f : Address) (c : IpAddr)
    (t : Option Token) (k : Address) (h : k ≠ f) :
    (associate_with_user_from b f c t).user_froms.find? k =
      b.user_froms.find? k := by
  unfold associate_with_user_from
  exact Map.find?_insert_ne _ f k _ h

theorem associate_with_user_token_other (b : State) (t : Token) (c : IpAddr)
    (f : Address) (k : Token) (h : k ≠ t) :
    (associate_with_user_token b t c f).user_tokens.find? k =
      b.user_tokens.find? k := by
  unfold associate_with_user_token
  exact Map.find?_insert_ne _ t k _ h


theorem associate_all_frame (b : State) (i : RelayerInput) :
    (associate_all b i).ban_list = b.ban_list ∧
    (associate_all b i).config = b.config ∧
    (associate_all b i).next_check = b.next_check := by
  unfold associate_all
  rcases i.token with _ | tok <;> exact ⟨rfl, rfl, rfl⟩

theorem associate_all_client_self (b : State) (i : RelayerInput) :
    ((associate_all b i).user_clients.find? i.client).map
        (fun uc => (uc.ban_progress, uc.banned)) =
      some (((b.user_clients.find? i.client).getD UserClient.default).ban_progress,
            ((b.user_clients.find? i.client).getD UserClient.default).banned) := by
  unfold associate_all
  rcases ht : i.token with _ | tok
  · simpa using associate_with_user_client_self b i.client i.params.fromAddr none
  · have h1 := (associate_with_user_from_frame
      (associate_with_user_client b i.client i.params.fromAddr (some tok))
      i.params.fromAddr i.client (some tok)).1
    have h2 := (associate_with_user_token_frame
      (associate_with_user_from
        (associate_with_user_client b i.client i.params.fromAddr (some tok))
        i.params.fromAddr i.client (some tok)) tok i.client i.params.fromAddr).1
    simp only [h2, h1]
    simpa using associate_with_user_client_self b i.client i.params.fromAddr (some tok)

theorem associate_all_from_self (b : State) (i : RelayerInput) :
    ((associate_all b i).user_froms.find? i.params.fromAddr).map
        (fun uf => (uf.ban_progress, uf.banned)) =
      some (((b.user_froms.find? i.params.fromAddr).getD UserFrom.default).ban_progress,
            ((b.user_froms.find? i.params.fromAddr).getD UserFrom.default).banned) := by
  unfold associate_all
  rcases ht : i.token with _ | tok
  · have h0 := (associate_with_user_client_frame b i.client i.params.fromAddr none).1
    simp only [h0.symm]
    simpa using associate_with_user_from_self
      (associate_with_user_client b i.client i.params.fromAddr none)
      i.params.fromAddr i.client none
  · have h0 := (associate_with_user_client_frame b i.client i.params.fromAddr (some tok)).1
    have h2 := (associate_with_user_token_frame
      (associate_with_user_from
        (associate_with_user_client b i.client i.params.fromAddr (some tok))
        i.params.fromAddr i.client (some tok)) tok i.client i.params.fromAddr).2.1
    simp only [h2, h0.symm]
    simpa using associate_with_user_from_self
      (associate_with_user_client b i.client i.params.fromAddr (some tok))
      i.params.fromAddr i.client (some tok)

theorem associate_all_token_self (b : State) (i : RelayerInput) (tok : Token)
    (ht : i.token = some tok) :
    ((associate_all b i).user_tokens.find? tok).map
        (fun ut => (ut.ban_progress, ut.banned)) =
      some (((b.user_tokens.find? tok).getD UserToken.default).ban_progress,
            ((b.user_tokens.find? tok).getD UserToken.default).banned) := by
  unfold associate_all
  rw [ht]
  have h0 := (associate_with_user_client_frame b i.client i.params.fromAddr (some tok)).2.1
  have h1 := (associate_with_user_from_frame
    (associate_with_user_client b i.client i.params.fromAddr (some tok))
    i.params.fromAddr i.client (some tok)).2.1
  have := associate_with_user_token_self
    (associate_with_user_from
      (associate_with_user_client b i.client i.params.fromAddr (some tok))
      i.params.fromAddr i.client (some tok)) tok i.client i.params.fromAddr
  rw [h1, h0] at this
  simpa [ht] using this

/-! ### Ban-transition lemmas -/

theorem apply_client_ban_false (b : State) (c : IpAddr)
    (err : Option TransactionError) : apply_client_ban b c false err = some (b, []) := rfl

theorem apply_from_ban_false (b : State) (f : Address)
    (err : Option TransactionError) : apply_from_ban b f false err = some (b, []) := rfl

theorem apply_token_ban_false (b : State) (tok : Option Token)
    (err : Option TransactionError) : apply_token_ban b tok false err = some (b, []) := rfl

theorem apply_client_ban_some (b : State) (c : IpAddr) (r : Bool)
    (err : Option TransactionError) (b₂ : State) (ns : List Notification)
    (h : apply_client_ban b c r err = some (b₂, ns)) :
    (r = false ∧ b₂ = b ∧ ns = []) ∨
    (r = true ∧ ∃ e uc, err = some e ∧ b.user_clients.find? c = some uc ∧
      b₂ = { b with user_clients := b.user_clients.erase c, ban_list := { b.ban_list with clients := b.ban_list.clients.insert c uc } } ∧
      ns = [Notification.bannedClient c e]) := by
  cases r
  · left
    rw [apply_client_ban_false] at h
    obtain ⟨h1, h2⟩ := Prod.mk.injEq .. ▸ Option.some.injEq .. ▸ h
    exact ⟨rfl, h1.symm, h2.symm⟩
  · right
    refine ⟨rfl, ?_⟩
    rcases he : err with _ | e
    · rw [he] at h; simp [apply_client_ban] at h
    · rcases hf : b.user_clients.find? c with _ | uc
      · rw [he] at h; simp [apply_client_ban, hf] at h
      · refine ⟨e, uc, rfl, rfl, ?_⟩
        rw [he] at h
        simp only [apply_client_ban, hf, if_true] at h
        obtain ⟨h1, h2⟩ := Prod.mk.injEq .. ▸ Option.some.injEq .. ▸ h
        exact ⟨h1.symm, h2.symm⟩

theorem apply_from_ban_some (b : State) (f : Address) (r : Bool)
    (err : Option TransactionError) (b₂ : State) (ns : List Notification)
    (h : apply_from_ban b f r err = some (b₂, ns)) :
    (r = false ∧ b₂ = b ∧ ns = []) ∨
    (r = true ∧ ∃ e uf, err = some e ∧ b.user_froms.find? f = some uf ∧
      b₂ = { b with user_froms := b.user_froms.erase f, ban_list := { b.ban_list with froms := b.ban_list.froms.insert f uf } } ∧
      ns = [Notification.bannedFrom f e]) := by
  cases r
  · left
    rw [apply_from_ban_false] at h
    obtain ⟨h1, h2⟩ := Prod.mk.injEq .. ▸ Option.some.injEq .. ▸ h
    exact ⟨rfl, h1.symm, h2.symm⟩
  · right
    refine ⟨rfl, ?_⟩
    rcases he : err with _ | e
    · rw [he] at h; simp [apply_from_ban] at h
    · rcases hf : b.user_froms.find? f with _ | uf
      · rw [he] at h; simp [apply_from_ban, hf] at h
      · refine ⟨e, uf, rfl, rfl, ?_⟩
        rw [he] at h
        simp only [apply_from_ban, hf, if_true] at h
        obtain ⟨h1, h2⟩ := Prod.mk.injEq .. ▸ Option.some.injEq .. ▸ h
        exact ⟨h1.symm, h2.symm⟩

theorem apply_token_ban_some (b : State) (tok : Option Token) (r : Bool)
    (err : Option TransactionError) (b₂ : State) (ns : List Notification)
    (h : apply_token_ban b tok r err = some (b₂, ns)) :
    (r = false ∧ b₂ = b ∧ ns = []) ∨
    (r = true ∧ ∃ t e ut, tok = some t ∧ err = some e ∧ b.user_tokens.find? t = some ut ∧
      b₂ = { b with user_tokens := b.user_tokens.erase t, ban_list := { b.ban_list with tokens := b.ban_list.tokens.insert t ut } } ∧
      ns = [Notification.bannedToken t e]) := by
  cases r
  · left
    rw [apply_token_ban_false] at h
    obtain ⟨h1, h2⟩ := Prod.mk.injEq .. ▸ Option.some.injEq .. ▸ h
    exact ⟨rfl, h1.symm, h2.symm⟩
  · right
    refine ⟨rfl, ?_⟩
    rcases ht : tok with _ | t
    · rw [ht] at h; simp [apply_token_ban] at h
    · rcases he : err with _ | e
      · rw [ht, he] at h; simp [apply_token_ban] at h
      · rcases hf : b.user_tokens.find? t with _ | ut
        · rw [ht, he] at h; simp [apply_token_ban, hf] at h
        · refine ⟨t, e, ut, rfl, rfl, hf, ?_⟩
          rw [ht, he] at h
          simp only [apply_token_ban, hf, if_true] at h
          obtain ⟨h1, h2⟩ := Prod.mk.injEq .. ▸ Option.some.injEq .. ▸ h
          exact ⟨h1.symm, h2.symm⟩

/-! ### Inversion of `ban_progression` and `read_input` -/

theorem ban_progression_inv (b : State) (u : User) (tok : Option Token)
    (err : Option TransactionError) (b₃ : State) (c f t : Bool)
    (h : ban_progression b u tok err = some (b₃, c, f, t)) :
    ∃ s₁ s₂, client_axis b u.client tok err = some (s₁, c) ∧
      from_axis s₁ u.fromAddr tok err = some (s₂, f) ∧
      token_axis s₂ tok err = some (b₃, t) := by
  unfold ban_progression at h
  rcases hca : client_axis b u.client tok err with _ | ⟨s₁, r₁⟩
  · simp [hca] at h
  · simp only [hca] at h
    rcases hfa : from_axis s₁ u.fromAddr tok err with _ | ⟨s₂, r₂⟩
    · simp [hfa] at h
    · simp only [hfa] at h
      rcases hta : token_axis s₂ tok err with _ | ⟨s₃, r₃⟩
      · simp [hta] at h
      · simp only [hta, Option.some.injEq, Prod.mk.injEq] at h
        obtain ⟨hb, hc, hf, ht⟩ := h
        subst hb; subst hc; subst hf; subst ht
        exact ⟨s₁, s₂, rfl, hfa, hta⟩

theorem read_input_def (b : State) (i : RelayerInput) :
    read_input b i =
      match ban_progression (associate_all b i)
          { client := i.client, fromAddr := i.params.fromAddr, token := i.token }
          i.token i.error with
      | none => none
      | some (b₁, is_client_banned, is_from_banned, is_token_banned) =>
        match apply_client_ban b₁ i.client is_client_banned i.error with
        | none => none
        | some (b₂, ns₁) =>
          match apply_from_ban b₂ i.params.fromAddr is_from_banned i.error with
          | none => none
          | some (b₃, ns₂) =>
            match apply_token_ban b₃ i.token is_token_banned i.error with
            | none => none
            | some (b₄, ns₃) => some (b₄, ns₁ ++ ns₂ ++ ns₃) := rfl

theorem read_input_inv (b : State) (i : RelayerInput) (b' : State)
    (ns : List Notification) (h : read_input b i = some (b', ns)) :
    ∃ c f t s₃ u₁ ns₁ u₂ ns₂ ns₃,
      ban_progression (associate_all b i)
          { client := i.client, fromAddr := i.params.fromAddr, token := i.token }
          i.token i.error = some (s₃, c, f, t) ∧
      apply_client_ban s₃ i.client c i.error = some (u₁, ns₁) ∧
      apply_from_ban u₁ i.params.fromAddr f i.error = some (u₂, ns₂) ∧
      apply_token_ban u₂ i.token t i.error = some (b', ns₃) ∧
      ns = ns₁ ++ ns₂ ++ ns₃ := by
  rw [read_input_def] at h
  rcases hbp : ban_progression (associate_all b i)
      { client := i.client, fromAddr := i.params.fromAddr, token := i.token }
      i.token i.error with _ | ⟨s₃, c, f, t⟩
  · simp [hbp] at h
  · simp only [hbp] at h
    rcases h1 : apply_client_ban s₃ i.client c i.error with _ | ⟨u₁, ns₁⟩
    · simp [h1] at h
    · simp only [h1] at h
      rcases h2 : apply_from_ban u₁ i.params.fromAddr f i.error with _ | ⟨u₂, ns₂⟩
      · simp [h2] at h
      · simp only [h2] at h
        rcases h3 : apply_token_ban u₂ i.token t i.error with _ | ⟨u₃, ns₃⟩
        · simp [h3] at h
        · simp only [h3, Option.some.injEq, Prod.mk.injEq] at h
          obtain ⟨hb, hns⟩ := h
          subst hb
          exact ⟨c, f, t, s₃, u₁, ns₁, u₂, ns₂, ns₃, rfl, h1, h2, h3, hns.symm⟩

/-! ### Frames of the three transition blocks -/

theorem apply_client_ban_frame (b : State) (c : IpAddr) (r : Bool)
    (err : Option TransactionError) (b₂ : State) (ns : List Notification)
    (h : apply_client_ban b c r err = some (b₂, ns)) :
    b₂.ban_list.froms = b.ban_list.froms ∧ b₂.ban_list.tokens = b.ban_list.tokens ∧
    b₂.user_froms = b.user_froms ∧ b₂.user_tokens = b.user_tokens ∧
    b₂.config = b.config ∧ b₂.next_check = b.next_check := by
  rcases apply_client_ban_some b c r err b₂ ns h with ⟨_, hb, _⟩ |
    ⟨_, e, uc, _, _, hb, _⟩ <;> subst hb <;> exact ⟨rfl, rfl, rfl, rfl, rfl, rfl⟩

theorem apply_from_ban_frame (b : State) (f : Address) (r : Bool)
    (err : Option TransactionError) (b₂ : State) (ns : List Notification)
    (h : apply_from_ban b f r err = some (b₂, ns)) :
    b₂.ban_list.clients = b.ban_list.clients ∧ b₂.ban_list.tokens = b.ban_list.tokens ∧
    b₂.user_clients = b.user_clients ∧ b₂.user_tokens = b.user_tokens ∧
    b₂.config = b.config ∧ b₂.next_check = b.next_check := by
  rcases apply_from_ban_some b f r err b₂ ns h with ⟨_, hb, _⟩ |
    ⟨_, e, uf, _, _, hb, _⟩ <;> subst hb <;> exact ⟨rfl, rfl, rfl, rfl, rfl, rfl⟩

theorem apply_token_ban_frame (b : State) (tok : Option Token) (r : Bool)
    (err : Option TransactionError) (b₂ : State) (ns : List Notification)
    (h : apply_token_ban b tok r err = some (b₂, ns)) :
    b₂.ban_list.clients = b.ban_list.clients ∧ b₂.ban_list.froms = b.ban_list.froms ∧
    b₂.user_clients = b.user_clients ∧ b₂.user_froms = b.user_froms ∧
    b₂.config = b.config ∧ b₂.next_check = b.next_check := by
  rcases apply_token_ban_some b tok r err b₂ ns h with ⟨_, hb, _⟩ |
    ⟨_, t, e, ut, _, _, _, hb, _⟩ <;> subst hb <;> exact ⟨rfl, rfl, rfl, rfl, rfl, rfl⟩


/-! ### `read_input` on an already-banned identity -/

/-- If the event's client is already in the ban store, `read_input`
leaves the client ban-store table entirely unchanged, yet re-creates an
active-registry entry for that client. -/
theorem read_input_client_banned_before (b : State) (i : RelayerInput) (b' : State)
    (ns : List Notification) (h : read_input b i = some (b', ns))
    (hc : b.ban_list.clients.contains i.client = true) :
    b'.ban_list.clients = b.ban_list.clients ∧
    b'.user_clients.contains i.client = true := by
  obtain ⟨c, f, t, s₃, u₁, ns₁, u₂, ns₂, ns₃, hbp, h1, h2, h3, hns⟩ :=
    read_input_inv b i b' ns h
  obtain ⟨s₁, s₂, hca, hfa, hta⟩ :=
    ban_progression_inv _ _ _ _ _ _ _ _ hbp
  have hbl := (associate_all_frame b i).1
  have hc' : (associate_all b i).ban_list.clients.contains i.client = true := by
    rw [hbl]; exact hc
  rw [client_axis_skip _ _ _ _ hc'] at hca
  obtain ⟨hs₁, hcflag⟩ := Prod.mk.injEq .. ▸ Option.some.injEq .. ▸ hca
  subst hcflag
  rw [apply_client_ban_false] at h1
  obtain ⟨hu₁, hns₁⟩ := Prod.mk.injEq .. ▸ Option.some.injEq .. ▸ h1
  have hffr := from_axis_frame _ _ _ _ _ _ hfa
  have htfr := token_axis_frame _ _ _ _ _ hta
  have h2fr := apply_from_ban_frame _ _ _ _ _ _ h2
  have h3fr := apply_token_ban_frame _ _ _ _ _ _ h3
  constructor
  · calc b'.ban_list.clients = u₂.ban_list.clients := h3fr.1
      _ = u₁.ban_list.clients := h2fr.1
      _ = s₃.ban_list.clients := by rw [hu₁]
      _ = s₂.ban_list.clients := by rw [htfr.1]
      _ = s₁.ban_list.clients := by rw [hffr.1]
      _ = (associate_all b i).ban_list.clients := by rw [← hs₁]
      _ = b.ban_list.clients := by rw [hbl]
  · have huc : b'.user_clients = (associate_all b i).user_clients := by
      calc b'.user_clients = u₂.user_clients := h3fr.2.2.1
        _ = u₁.user_clients := h2fr.2.2.1
        _ = s₃.user_clients := by rw [hu₁]
        _ = s₂.user_clients := by rw [htfr.2.1]
        _ = s₁.user_clients := by rw [hffr.2.1]
        _ = (associate_all b i).user_clients := by rw [← hs₁]
    rw [huc]
    have hself := associate_all_client_self b i
    rcases hF : (associate_all b i).user_clients.find? i.client with _ | uc
    · rw [hF] at hself; simp at hself
    · simp [Map.contains, hF]

/-- If the event's sender is already in the ban store, `read_input`
leaves the sender ban-store table unchanged and re-creates an
active-registry entry for that sender. -/
theorem read_input_from_banned_before (b : State) (i : RelayerInput) (b' : State)
    (ns : List Notification) (h : read_input b i = some (b', ns))
    (hf : b.ban_list.froms.contains i.params.fromAddr = true) :
    b'.ban_list.froms = b.ban_list.froms ∧
    b'.user_froms.contains i.params.fromAddr = true := by
  obtain ⟨c, f, t, s₃, u₁, ns₁, u₂, ns₂, ns₃, hbp, h1, h2, h3, hns⟩ :=
    read_input_inv b i b' ns h
  obtain ⟨s₁, s₂, hca, hfa, hta⟩ :=
    ban_progression_inv _ _ _ _ _ _ _ _ hbp
  have hbl := (associate_all_frame b i).1
  have hcfr := client_axis_frame _ _ _ _ _ _ hca
  have hf' : s₁.ban_list.froms.contains i.params.fromAddr = true := by
    rw [hcfr.1, hbl]; exact hf
  rw [from_axis_skip _ _ _ _ hf'] at hfa
  obtain ⟨hs₂, hfflag⟩ := Prod.mk.injEq .. ▸ Option.some.injEq .. ▸ hfa
  subst hfflag
  rw [apply_from_ban_false] at h2
  obtain ⟨hu₂, hns₂⟩ := Prod.mk.injEq .. ▸ Option.some.injEq .. ▸ h2
  have htfr := token_axis_frame _ _ _ _ _ hta
  have h1fr := apply_client_ban_frame _ _ _ _ _ _ h1
  have h3fr := apply_token_ban_frame _ _ _ _ _ _ h3
  constructor
  · calc b'.ban_list.froms = u₂.ban_list.froms := h3fr.2.1
      _ = u₁.ban_list.froms := by rw [hu₂]
      _ = s₃.ban_list.froms := h1fr.1
      _ = s₂.ban_list.froms := by rw [htfr.1]
      _ = s₁.ban_list.froms := by rw [← hs₂]
      _ = b.ban_list.froms := by rw [hcfr.1, hbl]
  · have huf : b'.user_froms = s₁.user_froms := by
      calc b'.user_froms = u₂.user_froms := h3fr.2.2.2.1
        _ = u₁.user_froms := by rw [hu₂]
        _ = s₃.user_froms := h1fr.2.2.1
        _ = s₂.user_froms := by rw [htfr.2.2.1]
        _ = s₁.user_froms := by rw [← hs₂]
    rw [huf, hcfr.2.1]
    have hself := associate_all_from_self b i
    rcases hF : (associate_all b i).user_froms.find? i.params.fromAddr with _ | uf
    · rw [hF] at hself; simp at hself
    · simp [Map.contains, hF]

/-- If the event's token is already in the ban store, `read_input`
leaves the token ban-store table unchanged and re-creates an
active-registry entry for that token. -/
theorem read_input_token_banned_before (b : State) (i : RelayerInput) (b' : State)
    (ns : List Notification) (tok : Token) (h : read_input b i = some (b', ns))
    (hit : i.token = some tok)
    (ht : b.ban_list.tokens.contains tok = true) :
    b'.ban_list.tokens = b.ban_list.tokens ∧
    b'.user_tokens.contains tok = true := by
  obtain ⟨c, f, t, s₃, u₁, ns₁, u₂, ns₂, ns₃, hbp, h1, h2, h3, hns⟩ :=
    read_input_inv b i b' ns h
  obtain ⟨s₁, s₂, hca, hfa, hta⟩ :=
    ban_progression_inv _ _ _ _ _ _ _ _ hbp
  have hbl := (associate_all_frame b i).1
  have hcfr := client_axis_frame _ _ _ _ _ _ hca
  have hffr := from_axis_frame _ _ _ _ _ _ hfa
  have ht' : s₂.ban_list.tokens.contains tok = true := by
    rw [hffr.1, hcfr.1, hbl]; exact ht
  rw [hit] at hta
  rw [token_axis_skip _ _ _ ht'] at hta
  obtain ⟨hs₃, htflag⟩ := Prod.mk.injEq .. ▸ Option.some.injEq .. ▸ hta
  subst htflag
  rw [hit, apply_token_ban_false] at h3
  obtain ⟨hb', hns₃⟩ := Prod.mk.injEq .. ▸ Option.some.injEq .. ▸ h3
  have h1fr := apply_client_ban_frame _ _ _ _ _ _ h1
  have h2fr := apply_from_ban_frame _ _ _ _ _ _ h2
  constructor
  · calc b'.ban_list.tokens = u₂.ban_list.tokens := by rw [← hb']
      _ = u₁.ban_list.tokens := h2fr.2.1
      _ = s₃.ban_list.tokens := h1fr.2.1
      _ = s₂.ban_list.tokens := by rw [← hs₃]
      _ = b.ban_list.tokens := by rw [hffr.1, hcfr.1, hbl]
  · have hut : b'.user_tokens = s₂.user_tokens := by
      calc b'.user_tokens = u₂.user_tokens := by rw [← hb']
        _ = u₁.user_tokens := h2fr.2.2.2.1
        _ = s₃.user_tokens := h1fr.2.2.2.1
        _ = s₂.user_tokens := by rw [← hs₃]
    rw [hut, hffr.2.2.1, hcfr.2.2.1]
    have hself := associate_all_token_self b i tok hit
    rcases hF : (associate_all b i).user_tokens.find? tok with _ | ut
    · rw [hF] at hself; simp at hself
    · simp [Map.contains, hF]

/-! ### `read_input` on a not-yet-banned identity -/

/-- Full characterization of the client axis on an event whose client is
not yet banned: the ban decision is `check_error_ban` on the entry's
progress; a positive decision moves the entry (progress updated, ban tag
untouched) from the registry to the ban store and emits a notification;
a negative decision leaves the client ban-store table unchanged. -/
theorem read_input_client_not_banned (b : State) (i : RelayerInput) (b' : State)
    (ns : List Notification) (h : read_input b i = some (b', ns))
    (hc : b.ban_list.clients.contains i.client = false) :
    ((check_error_ban (clientEntryBefore b i.client).ban_progress b.config i.token i.error).2 = true →
       b'.user_clients.contains i.client = false ∧
       (b'.ban_list.clients.find? i.client).map (fun uc => (uc.ban_progress, uc.banned)) =
         some ((check_error_ban (clientEntryBefore b i.client).ban_progress b.config i.token i.error).1,
               (clientEntryBefore b i.client).banned) ∧
       ∃ e, i.error = some e ∧ Notification.bannedClient i.client e ∈ ns) ∧
    ((check_error_ban (clientEntryBefore b i.client).ban_progress b.config i.token i.error).2 = false →
       b'.ban_list.clients = b.ban_list.clients) := by
  obtain ⟨c, f, t, s₃, u₁, ns₁, u₂, ns₂, ns₃, hbp, h1, h2, h3, hns⟩ :=
    read_input_inv b i b' ns h
  obtain ⟨s₁, s₂, hca₀, hfa, hta⟩ :=
    ban_progression_inv _ _ _ _ _ _ _ _ hbp
  have hca : client_axis (associate_all b i) i.client i.token i.error = some (s₁, c) := hca₀
  have hbl := (associate_all_frame b i).1
  have hcfg := (associate_all_frame b i).2.1
  have hc' : (associate_all b i).ban_list.clients.contains i.client = false := by
    rw [hbl]; exact hc
  rcases client_axis_some _ _ _ _ _ _ hca with ⟨hcontra, _, _⟩ | ⟨_, uc, hFuc, hs₁, hr⟩
  · simp [hc'] at hcontra
  · rw [hcfg] at hr
    have hself := associate_all_client_self b i
    rw [hFuc] at hself
    simp only [Option.map_some'] at hself
    obtain ⟨hP, hB⟩ := Prod.mk.injEq .. ▸ Option.some.injEq .. ▸ hself
    have hP' : uc.ban_progress = (clientEntryBefore b i.client).ban_progress := hP
    have hB' : uc.banned = (clientEntryBefore b i.client).banned := hB
    rw [hP'] at hr
    have hffr := from_axis_frame _ _ _ _ _ _ hfa
    have htfr := token_axis_frame _ _ _ _ _ hta
    constructor
    · intro hflagT
      have hcT : c = true := by rw [hr]; exact hflagT
      subst hcT
      rcases apply_client_ban_some _ _ _ _ _ _ h1 with ⟨hfalse, _, _⟩ |
        ⟨_, e, uc', hE, hFuc', hu₁, hns₁⟩
      · cases hfalse
      · have hUC3 : s₃.user_clients =
            (associate_all b i).user_clients.insert i.client
              ({ uc with ban_progress := (check_error_ban uc.ban_progress b.config i.token i.error).1 }) := by
          rw [htfr.2.1, hffr.2.1, hs₁, hcfg]
        have huc' : uc' =
            { uc with ban_progress := (check_error_ban uc.ban_progress b.config i.token i.error).1 } := by
          rw [hUC3, Map.find?_insert_self] at hFuc'
          exact (Option.some.injEq .. ▸ hFuc').symm
        have h2fr := apply_from_ban_frame _ _ _ _ _ _ h2
        have h3fr := apply_token_ban_frame _ _ _ _ _ _ h3
        refine ⟨?_, ?_, e, hE, ?_⟩
        · have huce : b'.user_clients = s₃.user_clients.erase i.client := by
            rw [h3fr.2.2.1, h2fr.2.2.1, hu₁]
          simp [Map.contains, huce, Map.find?_erase_self]
        · have hbc : b'.ban_list.clients = s₃.ban_list.clients.insert i.client uc' := by
            rw [h3fr.1, h2fr.1, hu₁]
          rw [hbc, Map.find?_insert_self]
          simp [huc', hP', hB']
        · rw [hns, hns₁]
          simp
    · intro hflagF
      have hcF : c = false := by rw [hr]; exact hflagF
      subst hcF
      rw [apply_client_ban_false] at h1
      obtain ⟨hu₁, hns₁⟩ := Prod.mk.injEq .. ▸ Option.some.injEq .. ▸ h1
      have h2fr := apply_from_ban_frame _ _ _ _ _ _ h2
      have h3fr := apply_token_ban_frame _ _ _ _ _ _ h3
      calc b'.ban_list.clients = u₂.ban_list.clients := h3fr.1
        _ = u₁.ban_list.clients := h2fr.1
        _ = s₃.ban_list.clients := by rw [hu₁]
        _ = s₂.ban_list.clients := by rw [htfr.1]
        _ = s₁.ban_list.clients := by rw [hffr.1]
        _ = b.ban_list.clients := by rw [hs₁]; exact congrArg BanList.clients hbl

/-- Full characterization of the sender axis on an event whose sender is
not yet banned. -/
theorem read_input_from_not_banned (b : State) (i : RelayerInput) (b' : State)
    (ns : List Notification) (h : read_input b i = some (b', ns))
    (hf : b.ban_list.froms.contains i.params.fromAddr = false) :
    ((check_error_ban (fromEntryBefore b i.params.fromAddr).ban_progress b.config i.token i.error).2 = true →
       b'.user_froms.contains i.params.fromAddr = false ∧
       (b'.ban_list.froms.find? i.params.fromAddr).map (fun uf => (uf.ban_progress, uf.banned)) =
         some ((check_error_ban (fromEntryBefore b i.params.fromAddr).ban_progress b.config i.token i.error).1,
               (fromEntryBefore b i.params.fromAddr).banned) ∧
       ∃ e, i.error = some e ∧ Notification.bannedFrom i.params.fromAddr e ∈ ns) ∧
    ((check_error_ban (fromEntryBefore b i.params.fromAddr).ban_progress b.config i.token i.error).2 = false →
       b'.ban_list.froms = b.ban_list.froms) := by
  obtain ⟨c, f, t, s₃, u₁, ns₁, u₂, ns₂, ns₃, hbp, h1, h2, h3, hns⟩ :=
    read_input_inv b i b' ns h
  obtain ⟨s₁, s₂, hca, hfa₀, hta⟩ :=
    ban_progression_inv _ _ _ _ _ _ _ _ hbp
  have hfa : from_axis s₁ i.params.fromAddr i.token i.error = some (s₂, f) := hfa₀
  have hbl := (associate_all_frame b i).1
  have hcfg := (associate_all_frame b i).2.1
  have hcfr := client_axis_frame _ _ _ _ _ _ hca
  have hf' : s₁.ban_list.froms.contains i.params.fromAddr = false := by
    rw [hcfr.1, hbl]; exact hf
  rcases from_axis_some _ _ _ _ _ _ hfa with ⟨hcontra, _, _⟩ | ⟨_, uf, hFuf, hs₂, hr⟩
  · simp [hf'] at hcontra
  · have hcfg₁ : s₁.config = b.config := by rw [hcfr.2.2.2.1, hcfg]
    rw [hcfg₁] at hr
    have hFuf' : (associate_all b i).user_froms.find? i.params.fromAddr = some uf := by
      rw [← hcfr.2.1]; exact hFuf
    have hself := associate_all_from_self b i
    rw [hFuf'] at hself
    simp only [Option.map_some'] at hself
    obtain ⟨hP, hB⟩ := Prod.mk.injEq .. ▸ Option.some.injEq .. ▸ hself
    have hP' : uf.ban_progress = (fromEntryBefore b i.params.fromAddr).ban_progress := hP
    have hB' : uf.banned = (fromEntryBefore b i.params.fromAddr).banned := hB
    rw [hP'] at hr
    have htfr := token_axis_frame _ _ _ _ _ hta
    have h1fr := apply_client_ban_frame _ _ _ _ _ _ h1
    constructor
    · intro hflagT
      have hfT : f = true := by rw [hr]; exact hflagT
      subst hfT
      rcases apply_from_ban_some _ _ _ _ _ _ h2 with ⟨hfalse, _, _⟩ |
        ⟨_, e, uf', hE, hFuf₃, hu₂, hns₂⟩
      · cases hfalse
      · have hUF : u₁.user_froms =
            s₁.user_froms.insert i.params.fromAddr
              ({ uf with ban_progress := (check_error_ban uf.ban_progress b.config i.token i.error).1 }) := by
          rw [h1fr.2.2.1, htfr.2.2.1, hs₂, hcfg₁]
        have huf' : uf' =
            { uf with ban_progress := (check_error_ban uf.ban_progress b.config i.token i.error).1 } := by
          rw [hUF, Map.find?_insert_self] at hFuf₃
          exact (Option.some.injEq .. ▸ hFuf₃).symm
        have h3fr := apply_token_ban_frame _ _ _ _ _ _ h3
        refine ⟨?_, ?_, e, hE, ?_⟩
        · have hufe : b'.user_froms = u₁.user_froms.erase i.params.fromAddr := by
            rw [h3fr.2.2.2.1, hu₂]
          simp [Map.contains, hufe, Map.find?_erase_self]
        · have hbf : b'.ban_list.froms = u₁.ban_list.froms.insert i.params.fromAddr uf' := by
            rw [h3fr.2.1, hu₂]
          rw [hbf, Map.find?_insert_self]
          simp [huf', hP', hB']
        · rw [hns, hns₂]
          simp
    · intro hflagF
      have hfF : f = false := by rw [hr]; exact hflagF
      subst hfF
      rw [apply_from_ban_false] at h2
      obtain ⟨hu₂, hns₂⟩ := Prod.mk.injEq .. ▸ Option.some.injEq .. ▸ h2
      have h3fr := apply_token_ban_frame _ _ _ _ _ _ h3
      calc b'.ban_list.froms = u₂.ban_list.froms := h3fr.2.1
        _ = u₁.ban_list.froms := by rw [hu₂]
        _ = s₃.ban_list.froms := h1fr.1
        _ = s₂.ban_list.froms := by rw [htfr.1]
        _ = s₁.ban_list.froms := by rw [hs₂]
        _ = b.ban_list.froms := by rw [hcfr.1]; exact congrArg BanList.froms hbl

/-- Full characterization of the token axis on an event carrying a token
that is not yet banned. -/
theorem read_input_token_not_banned (b : State) (i : RelayerInput) (b' : State)
    (ns : List Notification) (tok : Token) (h : read_input b i = some (b', ns))
    (hit : i.token = some tok)
    (ht : b.ban_list.tokens.contains tok = false) :
    ((check_error_ban (tokenEntryBefore b tok).ban_progress b.config (some tok) i.error).2 = true →
       b'.user_tokens.contains tok = false ∧
       (b'.ban_list.tokens.find? tok).map (fun ut => (ut.ban_progress, ut.banned)) =
         some ((check_error_ban (tokenEntryBefore b tok).ban_progress b.config (some tok) i.error).1,
               (tokenEntryBefore b tok).banned) ∧
       ∃ e, i.error = some e ∧ Notification.bannedToken tok e ∈ ns) ∧
    ((check_error_ban (tokenEntryBefore b tok).ban_progress b.config (some tok) i.error).2 = false →
       b'.ban_list.tokens = b.ban_list.tokens) := by
  obtain ⟨c, f, t, s₃, u₁, ns₁, u₂, ns₂, ns₃, hbp, h1, h2, h3, hns⟩ :=
    read_input_inv b i b' ns h
  obtain ⟨s₁, s₂, hca, hfa, hta⟩ :=
    ban_progression_inv _ _ _ _ _ _ _ _ hbp
  have hbl := (associate_all_frame b i).1
  have hcfg := (associate_all_frame b i).2.1
  have hcfr := client_axis_frame _ _ _ _ _ _ hca
  have hffr := from_axis_frame _ _ _ _ _ _ hfa
  have ht' : s₂.ban_list.tokens.contains tok = false := by
    rw [hffr.1, hcfr.1, hbl]; exact ht
  rw [hit] at hta
  rcases token_axis_some _ _ _ _ _ hta with ⟨hnone, _, _⟩ |
    ⟨t', hteq, hcontra, _, _⟩ | ⟨t', hteq, hcont, ut, hFut, hs₃, hr⟩
  · cases hnone
  · have ht'' : t' = tok := by
      have := Option.some.injEq .. ▸ hteq
      exact this.symm
    rw [ht''] at hcontra
    simp [ht'] at hcontra
  · have ht'' : t' = tok := by
      have := Option.some.injEq .. ▸ hteq
      exact this.symm
    rw [ht''] at hcont hFut hs₃ hr
    have hcfg₂ : s₂.config = b.config := by rw [hffr.2.2.2.1, hcfr.2.2.2.1, hcfg]
    rw [hcfg₂] at hr
    have hFut' : (associate_all b i).user_tokens.find? tok = some ut := by
      rw [← hcfr.2.2.1, ← hffr.2.2.1]; exact hFut
    have hself := associate_all_token_self b i tok hit
    rw [hFut'] at hself
    simp only [Option.map_some'] at hself
    obtain ⟨hP, hB⟩ := Prod.mk.injEq .. ▸ Option.some.injEq .. ▸ hself
    have hP' : ut.ban_progress = (tokenEntryBefore b tok).ban_progress := hP
    have hB' : ut.banned = (tokenEntryBefore b tok).banned := hB
    rw [hP'] at hr
    have h1fr := apply_client_ban_frame _ _ _ _ _ _ h1
    have h2fr := apply_from_ban_frame _ _ _ _ _ _ h2
    constructor
    · intro hflagT
      have htT : t = true := by rw [hr]; exact hflagT
      subst htT
      rcases apply_token_ban_some _ _ _ _ _ _ h3 with ⟨hfalse, _, _⟩ |
        ⟨_, t'', e, ut', hteq₃, hE, hFut₃, hb', hns₃⟩
      · cases hfalse
      · have ht₃ : t'' = tok := by
          rw [hit] at hteq₃
          exact (Option.some.injEq .. ▸ hteq₃).symm
        rw [ht₃] at hFut₃ hb' hns₃
        have hUT : u₂.user_tokens =
            s₂.user_tokens.insert tok
              ({ ut with ban_progress := (check_error_ban ut.ban_progress b.config (some tok) i.error).1 }) := by
          rw [h2fr.2.2.2.1, h1fr.2.2.2.1, hs₃, hcfg₂]
        have hut' : ut' =
            { ut with ban_progress := (check_error_ban ut.ban_progress b.config (some tok) i.error).1 } := by
          rw [hUT, Map.find?_insert_self] at hFut₃
          exact (Option.some.injEq .. ▸ hFut₃).symm
        refine ⟨?_, ?_, e, hE, ?_⟩
        · have hute : b'.user_tokens = u₂.user_tokens.erase tok := by rw [hb']
          simp [Map.contains, hute, Map.find?_erase_self]
        · have hbt : b'.ban_list.tokens = u₂.ban_list.tokens.insert tok ut' := by rw [hb']
          rw [hbt, Map.find?_insert_self]
          simp [hut', hP', hB']
        · rw [hns, hns₃]
          simp
    · intro hflagF
      have htF : t = false := by rw [hr]; exact hflagF
      subst htF
      rw [hit, apply_token_ban_false] at h3
      obtain ⟨hb', hns₃⟩ := Prod.mk.injEq .. ▸ Option.some.injEq .. ▸ h3
      calc b'.ban_list.tokens = u₂.ban_list.tokens := by rw [← hb']
        _ = u₁.ban_list.tokens := h2fr.2.1
        _ = s₃.ban_list.tokens := h1fr.2.1
        _ = s₂.ban_list.tokens := by rw [hs₃]
        _ = b.ban_list.tokens := by rw [hffr.1, hcfr.1]; exact congrArg BanList.tokens hbl

/-! ### Events with no bannable signal -/

/-- An event with no error, or with a relayer-internal error, leaves the
whole ban store untouched. -/
theorem read_input_no_signal (b : State) (i : RelayerInput) (b' : State)
    (ns : List Notification) (h : read_input b i = some (b', ns))
    (he : i.error = none ∨ ∃ s, i.error = some (TransactionError.Relayer s)) :
    b'.ban_list = b.ban_list := by
  have hcheck : ∀ (p : BanProgress) (cfg : Config) (tk : Option Token),
      (check_error_ban p cfg tk i.error).2 = false := by
    intro p cfg tk
    rcases he with he | ⟨s, he⟩ <;> rw [he] <;> rfl
  obtain ⟨c, f, t, s₃, u₁, ns₁, u₂, ns₂, ns₃, hbp, h1, h2, h3, hns⟩ :=
    read_input_inv b i b' ns h
  obtain ⟨s₁, s₂, hca, hfa, hta⟩ :=
    ban_progression_inv _ _ _ _ _ _ _ _ hbp
  have hc : c = false := by
    rcases client_axis_some _ _ _ _ _ _ hca with ⟨_, _, hc⟩ | ⟨_, uc, _, _, hc⟩
    · exact hc
    · rw [hc, hcheck]
  have hf : f = false := by
    rcases from_axis_some _ _ _ _ _ _ hfa with ⟨_, _, hf⟩ | ⟨_, uf, _, _, hf⟩
    · exact hf
    · rw [hf, hcheck]
  have ht : t = false := by
    rcases token_axis_some _ _ _ _ _ hta with ⟨_, _, ht⟩ | ⟨_, _, _, _, ht⟩ |
      ⟨tk, _, _, ut, _, _, ht⟩
    · exact ht
    · exact ht
    · rw [ht, hcheck]
  subst hc; subst hf; subst ht
  rw [apply_client_ban_false] at h1
  obtain ⟨hu₁, _⟩ := Prod.mk.injEq .. ▸ Option.some.injEq .. ▸ h1
  rw [apply_from_ban_false] at h2
  obtain ⟨hu₂, _⟩ := Prod.mk.injEq .. ▸ Option.some.injEq .. ▸ h2
  rw [apply_token_ban_false] at h3
  obtain ⟨hb', _⟩ := Prod.mk.injEq .. ▸ Option.some.injEq .. ▸ h3
  have hcfr := client_axis_frame _ _ _ _ _ _ hca
  have hffr := from_axis_frame _ _ _ _ _ _ hfa
  have htfr := token_axis_frame _ _ _ _ _ hta
  calc b'.ban_list = u₂.ban_list := by rw [← hb']
    _ = u₁.ban_list := by rw [hu₂]
    _ = s₃.ban_list := by rw [hu₁]
    _ = s₂.ban_list := htfr.1
    _ = s₁.ban_list := hffr.1
    _ = (associate_all b i).ban_list := hcfr.1
    _ = b.ban_list := (associate_all_frame b i).1

/-! ### Ban-store monotonicity -/

theorem apply_client_ban_mono (b : State) (c : IpAddr) (r : Bool)
    (err : Option TransactionError) (b₂ : State) (ns : List Notification)
    (h : apply_client_ban b c r err = some (b₂, ns)) (k : IpAddr)
    (hk : b.ban_list.clients.contains k = true) :
    b₂.ban_list.clients.contains k = true := by
  rcases apply_client_ban_some _ _ _ _ _ _ h with ⟨_, hb, _⟩ | ⟨_, e, uc, _, _, hb, _⟩ <;>
    subst hb
  · exact hk
  · exact Map.contains_insert_of_contains _ c k uc hk

theorem apply_from_ban_mono (b : State) (f : Address) (r : Bool)
    (err : Option TransactionError) (b₂ : State) (ns : List Notification)
    (h : apply_from_ban b f r err = some (b₂, ns)) (k : Address)
    (hk : b.ban_list.froms.contains k = true) :
    b₂.ban_list.froms.contains k = true := by
  rcases apply_from_ban_some _ _ _ _ _ _ h with ⟨_, hb, _⟩ | ⟨_, e, uf, _, _, hb, _⟩ <;>
    subst hb
  · exact hk
  · exact Map.contains_insert_of_contains _ f k uf hk

theorem apply_token_ban_mono (b : State) (tok : Option Token) (r : Bool)
    (err : Option TransactionError) (b₂ : State) (ns : List Notification)
    (h : apply_token_ban b tok r err = some (b₂, ns)) (k : Token)
    (hk : b.ban_list.tokens.contains k = true) :
    b₂.ban_list.tokens.contains k = true := by
  rcases apply_token_ban_some _ _ _ _ _ _ h with ⟨_, hb, _⟩ | ⟨_, t, e, ut, _, _, _, hb, _⟩ <;>
    subst hb
  · exact hk
  · exact Map.contains_insert_of_contains _ t k ut hk

/-- `read_input` never removes anything from the ban store. -/
theorem read_input_ban_list_mono (b : State) (i : RelayerInput) (b' : State)
    (ns : List Notification) (h : read_input b i = some (b', ns)) :
    (∀ k, b.ban_list.clients.contains k = true → b'.ban_list.clients.contains k = true) ∧
    (∀ k, b.ban_list.froms.contains k = true → b'.ban_list.froms.contains k = true) ∧
    (∀ k, b.ban_list.tokens.contains k = true → b'.ban_list.tokens.contains k = true) := by
  obtain ⟨c, f, t, s₃, u₁, ns₁, u₂, ns₂, ns₃, hbp, h1, h2, h3, hns⟩ :=
    read_input_inv b i b' ns h
  obtain ⟨s₁, s₂, hca, hfa, hta⟩ :=
    ban_progression_inv _ _ _ _ _ _ _ _ hbp
  have hcfr := client_axis_frame _ _ _ _ _ _ hca
  have hffr := from_axis_frame _ _ _ _ _ _ hfa
  have htfr := token_axis_frame _ _ _ _ _ hta
  have h1fr := apply_client_ban_frame _ _ _ _ _ _ h1
  have h2fr := apply_from_ban_frame _ _ _ _ _ _ h2
  have h3fr := apply_token_ban_frame _ _ _ _ _ _ h3
  have hs₃bl : s₃.ban_list = b.ban_list := by
    rw [htfr.1, hffr.1, hcfr.1]
    exact (associate_all_frame b i).1
  refine ⟨?_, ?_, ?_⟩
  · intro k hk
    rw [h3fr.1, h2fr.1]
    exact apply_client_ban_mono _ _ _ _ _ _ h1 k (by rw [hs₃bl]; exact hk)
  · intro k hk
    rw [h3fr.2.1]
    refine apply_from_ban_mono _ _ _ _ _ _ h2 k ?_
    rw [h1fr.1, hs₃bl]
    exact hk
  · intro k hk
    refine apply_token_ban_mono _ _ _ _ _ _ h3 k ?_
    rw [h2fr.2.1, h1fr.2.1, hs₃bl]
    exact hk

/-- `ban_progression` returns `false` for any axis whose identity is
already in the ban list: a banned axis is never re-evaluated. -/
theorem ban_progression_skips_banned (b : State) (u : User) (tok : Option Token)
    (err : Option TransactionError) (b₃ : State) (c f t : Bool)
    (h : ban_progression b u tok err = some (b₃, c, f, t)) :
    (b.ban_list.clients.contains u.client = true → c = false) ∧
    (b.ban_list.froms.contains u.fromAddr = true → f = false) ∧
    (∀ tk, tok = some tk → b.ban_list.tokens.contains tk = true → t = false) := by
  obtain ⟨s₁, s₂, hca, hfa, hta⟩ := ban_progression_inv _ _ _ _ _ _ _ _ h
  have hcfr := client_axis_frame _ _ _ _ _ _ hca
  have hffr := from_axis_frame _ _ _ _ _ _ hfa
  refine ⟨?_, ?_, ?_⟩
  · intro hk
    rw [client_axis_skip _ _ _ _ hk] at hca
    exact ((Prod.mk.injEq .. ▸ Option.some.injEq .. ▸ hca).2).symm
  · intro hk
    have hk' : s₁.ban_list.froms.contains u.fromAddr = true := by
      rw [hcfr.1]; exact hk
    rw [from_axis_skip _ _ _ _ hk'] at hfa
    exact ((Prod.mk.injEq .. ▸ Option.some.injEq .. ▸ hfa).2).symm
  · intro tk htk hk
    have hk' : s₂.ban_list.tokens.contains tk = true := by
      rw [hffr.1, hcfr.1]; exact hk
    rw [htk] at hta
    rw [token_axis_skip _ _ _ hk'] at hta
    exact ((Prod.mk.injEq .. ▸ Option.some.injEq .. ▸ hta).2).symm

/-! ### Decay clock lemmas -/

/-- `tick` before (or exactly at) the deadline is a complete no-op. -/
theorem tick_no_reset (b : State) (elapsed : Nat) (h : elapsed ≤ b.next_check) :
    tick b elapsed = b := by
  unfold tick
  rw [if_neg (Nat.not_lt.mpr h)]

/-- `tick` strictly after the deadline: client progress is reset, the
deadline advances by exactly one timeframe, everything else is frozen. -/
theorem tick_reset (b : State) (elapsed : Nat) (h : b.next_check < elapsed) :
    (tick b elapsed).next_check = b.next_check + b.config.timeframe ∧
    (tick b elapsed).user_froms = b.user_froms ∧
    (tick b elapsed).user_tokens = b.user_tokens ∧
    (tick b elapsed).ban_list = b.ban_list ∧
    (tick b elapsed).config = b.config ∧
    ∀ k, (tick b elapsed).user_clients.find? k =
      (b.user_clients.find? k).map
        (fun uc => { uc with ban_progress := BanProgress.default }) := by
  unfold tick
  rw [if_pos h]
  exact ⟨rfl, rfl, rfl, rfl, rfl, fun k =>
    Map.find?_mapVal b.user_clients
      (fun uc => { uc with ban_progress := BanProgress.default }) k⟩

/-- `tick` never touches the sender table, the token table or the ban
store, whether or not it resets. -/
theorem tick_frame (b : State) (elapsed : Nat) :
    (tick b elapsed).user_froms = b.user_froms ∧
    (tick b elapsed).user_tokens = b.user_tokens ∧
    (tick b elapsed).ban_list = b.ban_list ∧
    (tick b elapsed).config = b.config := by
  by_cases h : b.next_check < elapsed
  · obtain ⟨_, h2, h3, h4, h5, _⟩ := tick_reset b elapsed h
    exact ⟨h2, h3, h4, h5⟩
  · rw [tick_no_reset b elapsed (Nat.not_lt.mp h)]
    exact ⟨rfl, rfl, rfl, rfl⟩

/-! ### Map idempotence -/

theorem Map.erase_erase_self {κ α : Type} [DecidableEq κ] (m : Map κ α) (k : κ) :
    (m.erase k).erase k = m.erase k := by
  induction m with
  | nil => rfl
  | cons p rest ih =>
    by_cases hp : p.1 = k
    · simpa [Map.erase, hp] using ih
    · simpa [Map.erase, hp] using ih

theorem Map.insert_insert_self {κ α : Type} [DecidableEq κ] (m : Map κ α) (k : κ) (v : α) :
    (m.insert k v).insert k v = m.insert k v := by
  simp [Map.insert, Map.erase, Map.erase_erase_self]

/-! ### Duplicate-freeness of association lists -/

theorem nodup_append_single (l : List Nat) (x : Nat) (h : l.Nodup)
    (hx : l.contains x = false) : (l ++ [x]).Nodup := by
  simp only [List.nodup_append]
  refine ⟨h, List.nodup_singleton x, ?_⟩
  simp only [List.disjoint_singleton]
  simpa using hx


theorem associate_with_user_client_nodup (b : State) (c : IpAddr) (f : Address)
    (t : Option Token)
    (hb : ∀ k uc, b.user_clients.find? k = some uc → uc.froms.Nodup ∧ uc.tokens.Nodup) :
    ∀ k uc, (associate_with_user_client b c f t).user_clients.find? k = some uc →
      uc.froms.Nodup ∧ uc.tokens.Nodup := by
  intro k uc hF
  by_cases hk : k = c
  · subst hk
    have hbase : ((b.user_clients.find? k).getD UserClient.default).froms.Nodup ∧
        ((b.user_clients.find? k).getD UserClient.default).tokens.Nodup := by
      rcases hE : b.user_clients.find? k with _ | u
      · simp [UserClient.default]
      · simpa using hb k u hE
    unfold associate_with_user_client at hF
    rw [Map.find?_insert_self] at hF
    have he := Option.some.injEq .. ▸ hF
    subst he
    rcases t with _ | tok <;> dsimp only <;> split_ifs <;>
      simp_all [nodup_append_single]
  · rw [associate_with_user_client_other b c f t k hk] at hF
    exact hb k uc hF

theorem associate_with_user_from_nodup (b : State) (f : Address) (c : IpAddr)
    (t : Option Token)
    (hb : ∀ k uf, b.user_froms.find? k = some uf → uf.clients.Nodup ∧ uf.tokens.Nodup) :
    ∀ k uf, (associate_with_user_from b f c t).user_froms.find? k = some uf →
      uf.clients.Nodup ∧ uf.tokens.Nodup := by
  intro k uf hF
  by_cases hk : k = f
  · subst hk
    have hbase : ((b.user_froms.find? k).getD UserFrom.default).clients.Nodup ∧
        ((b.user_froms.find? k).getD UserFrom.default).tokens.Nodup := by
      rcases hE : b.user_froms.find? k with _ | u
      · simp [UserFrom.default]
      · simpa using hb k u hE
    unfold associate_with_user_from at hF
    rw [Map.find?_insert_self] at hF
    have he := Option.some.injEq .. ▸ hF
    subst he
    rcases t with _ | tok <;> dsimp only <;> split_ifs <;>
      simp_all [nodup_append_single]
  · rw [associate_with_user_from_other b f c t k hk] at hF
    exact hb k uf hF

theorem associate_with_user_token_nodup (b : State) (t : Token) (c : IpAddr)
    (f : Address)
    (hb : ∀ k ut, b.user_tokens.find? k = some ut → ut.clients.Nodup ∧ ut.froms.Nodup) :
    ∀ k ut, (associate_with_user_token b t c f).user_tokens.find? k = some ut →
      ut.clients.Nodup ∧ ut.froms.Nodup := by
  intro k ut hF
  by_cases hk : k = t
  · subst hk
    have hbase : ((b.user_tokens.find? k).getD UserToken.default).clients.Nodup ∧
        ((b.user_tokens.find? k).getD UserToken.default).froms.Nodup := by
      rcases hE : b.user_tokens.find? k with _ | u
      · simp [UserToken.default]
      · simpa using hb k u hE
    unfold associate_with_user_token at hF
    rw [Map.find?_insert_self] at hF
    have he := Option.some.injEq .. ▸ hF
    subst he
    split_ifs <;> simp_all [nodup_append_single]
  · rw [associate_with_user_token_other b t c f k hk] at hF
    exact hb k ut hF

theorem associate_all_nodup (b : State) (i : RelayerInput)
    (hb : b.assocListsNodup) : (associate_all b i).assocListsNodup := by
  obtain ⟨hc, hf, ht⟩ := hb
  unfold associate_all
  rcases htok : i.token with _ | tok
  · refine ⟨?_, ?_, ?_⟩
    · intro k uc hF
      exact associate_with_user_client_nodup b i.client i.params.fromAddr none hc k uc hF
    · intro k uf hF
      exact associate_with_user_from_nodup _ i.params.fromAddr i.client none
        (by simpa using hf) k uf hF
    · intro k ut hF
      exact ht k ut hF
  · refine ⟨?_, ?_, ?_⟩
    · intro k uc hF
      exact associate_with_user_client_nodup b i.client i.params.fromAddr (some tok) hc k uc hF
    · intro k uf hF
      exact associate_with_user_from_nodup _ i.params.fromAddr i.client (some tok)
        (by simpa using hf) k uf hF
    · intro k ut hF
      refine associate_with_user_token_nodup _ tok i.client i.params.fromAddr ?_ k ut hF
      intro k' ut' hF'
      exact ht k' ut' hF'

/-- Every client entry surviving `read_input` carries exactly the
association lists computed by the association phase. -/
theorem read_input_trace_clients (b : State) (i : RelayerInput) (b' : State)
    (ns : List Notification) (h : read_input b i = some (b', ns)) :
    ∀ k uc', b'.user_clients.find? k = some uc' →
      ∃ uc, (associate_all b i).user_clients.find? k = some uc ∧
        uc'.froms = uc.froms ∧ uc'.tokens = uc.tokens := by
  obtain ⟨c, f, t, s₃, u₁, ns₁, u₂, ns₂, ns₃, hbp, h1, h2, h3, hns⟩ :=
    read_input_inv b i b' ns h
  obtain ⟨s₁, s₂, hca, hfa, hta⟩ :=
    ban_progression_inv _ _ _ _ _ _ _ _ hbp
  have hffr := from_axis_frame _ _ _ _ _ _ hfa
  have htfr := token_axis_frame _ _ _ _ _ hta
  have h2fr := apply_from_ban_frame _ _ _ _ _ _ h2
  have h3fr := apply_token_ban_frame _ _ _ _ _ _ h3
  intro k uc' hF
  have hFu₁ : u₁.user_clients.find? k = some uc' := by
    rw [← h2fr.2.2.1, ← h3fr.2.2.1]; exact hF
  have hFs₃ : s₃.user_clients.find? k = some uc' := by
    rcases apply_client_ban_some _ _ _ _ _ _ h1 with ⟨_, hb, _⟩ | ⟨_, e, ucx, _, _, hb, _⟩
    · rw [← hb]; exact hFu₁
    · subst hb
      by_cases hk : k = i.client
      · subst hk
        rw [Map.find?_erase_self] at hFu₁
        cases hFu₁
      · rw [Map.find?_erase_ne _ _ _ hk] at hFu₁
        exact hFu₁
  have hFs₁ : s₁.user_clients.find? k = some uc' := by
    rw [← hffr.2.1, ← htfr.2.1]; exact hFs₃
  rcases client_axis_some _ _ _ _ _ _ hca with ⟨_, hb, _⟩ | ⟨_, uc₀, hFuc₀, hb, _⟩
  · subst hb
    exact ⟨uc', hFs₁, rfl, rfl⟩
  · subst hb
    by_cases hk : k = i.client
    · subst hk
      rw [Map.find?_insert_self] at hFs₁
      have he := Option.some.injEq .. ▸ hFs₁
      exact ⟨uc₀, hFuc₀, by rw [← he], by rw [← he]⟩
    · rw [Map.find?_insert_ne _ _ _ _ hk] at hFs₁
      exact ⟨uc', hFs₁, rfl, rfl⟩

/-- Every sender entry surviving `read_input` carries exactly the
association lists computed by the association phase. -/
theorem read_input_trace_froms (b : State) (i : RelayerInput) (b' : State)
    (ns : List Notification) (h : read_input b i = some (b', ns)) :
    ∀ k uf', b'.user_froms.find? k = some uf' →
      ∃ uf, (associate_all b i).user_froms.find? k = some uf ∧
        uf'.clients = uf.clients ∧ uf'.tokens = uf.tokens := by
  obtain ⟨c, f, t, s₃, u₁, ns₁, u₂, ns₂, ns₃, hbp, h1, h2, h3, hns⟩ :=
    read_input_inv b i b' ns h
  obtain ⟨s₁, s₂, hca, hfa, hta⟩ :=
    ban_progression_inv _ _ _ _ _ _ _ _ hbp
  have hcfr := client_axis_frame _ _ _ _ _ _ hca
  have htfr := token_axis_frame _ _ _ _ _ hta
  have h1fr := apply_client_ban_frame _ _ _ _ _ _ h1
  have h3fr := apply_token_ban_frame _ _ _ _ _ _ h3
  intro k uf' hF
  have hFu₂ : u₂.user_froms.find? k = some uf' := by
    rw [← h3fr.2.2.2.1]; exact hF
  have hFu₁ : u₁.user_froms.find? k = some uf' := by
    rcases apply_from_ban_some _ _ _ _ _ _ h2 with ⟨_, hb, _⟩ | ⟨_, e, ufx, _, _, hb, _⟩
    · rw [← hb]; exact hFu₂
    · subst hb
      by_cases hk : k = i.params.fromAddr
      · subst hk
        rw [Map.find?_erase_self] at hFu₂
        cases hFu₂
      · rw [Map.find?_erase_ne _ _ _ hk] at hFu₂
        exact hFu₂
  have hFs₂ : s₂.user_froms.find? k = some uf' := by
    rw [← htfr.2.2.1, ← h1fr.2.2.1]; exact hFu₁
  rcases from_axis_some _ _ _ _ _ _ hfa with ⟨_, hb, _⟩ | ⟨_, uf₀, hFuf₀, hb, _⟩
  · subst hb
    rw [hcfr.2.1] at hFs₂
    exact ⟨uf', hFs₂, rfl, rfl⟩
  · subst hb
    by_cases hk : k = i.params.fromAddr
    · subst hk
      rw [Map.find?_insert_self] at hFs₂
      have he := Option.some.injEq .. ▸ hFs₂
      have hFuf₀' : (associate_all b i).user_froms.find? i.params.fromAddr = some uf₀ := by
        rw [← hcfr.2.1]; exact hFuf₀
      exact ⟨uf₀, hFuf₀', by rw [← he], by rw [← he]⟩
    · rw [Map.find?_insert_ne _ _ _ _ hk] at hFs₂
      rw [hcfr.2.1] at hFs₂
      exact ⟨uf', hFs₂, rfl, rfl⟩

/-- Every token entry surviving `read_input` carries exactly the
association lists computed by the association phase. -/
theorem read_input_trace_tokens (b : State) (i : RelayerInput) (b' : State)
    (ns : List Notification) (h : read_input b i = some (b', ns)) :
    ∀ k ut', b'.user_tokens.find? k = some ut' →
      ∃ ut, (associate_all b i).user_tokens.find? k = some ut ∧
        ut'.clients = ut.clients ∧ ut'.froms = ut.froms := by
  obtain ⟨c, f, t, s₃, u₁, ns₁, u₂, ns₂, ns₃, hbp, h1, h2, h3, hns⟩ :=
    read_input_inv b i b' ns h
  obtain ⟨s₁, s₂, hca, hfa, hta⟩ :=
    ban_progression_inv _ _ _ _ _ _ _ _ hbp
  have hcfr := client_axis_frame _ _ _ _ _ _ hca
  have hffr := from_axis_frame _ _ _ _ _ _ hfa
  have h1fr := apply_client_ban_frame _ _ _ _ _ _ h1
  have h2fr := apply_from_ban_frame _ _ _ _ _ _ h2
  intro k ut' hF
  have hFu₂ : u₂.user_tokens.find? k = some ut' := by
    rcases apply_token_ban_some _ _ _ _ _ _ h3 with ⟨_, hb, _⟩ | ⟨_, tk, e, utx, _, _, _, hb, _⟩
    · rw [← hb]; exact hF
    · subst hb
      by_cases hk : k = tk
      · subst hk
        rw [Map.find?_erase_self] at hF
        cases hF
      · rw [Map.find?_erase_ne _ _ _ hk] at hF
        exact hF
  have hFs₃ : s₃.user_tokens.find? k = some ut' := by
    rw [← h1fr.2.2.2.1, ← h2fr.2.2.2.1]; exact hFu₂
  rcases token_axis_some _ _ _ _ _ hta with ⟨_, hb, _⟩ | ⟨tk, _, _, hb, _⟩ |
    ⟨tk, _, _, ut₀, hFut₀, hb, _⟩
  · subst hb
    rw [hffr.2.2.1, hcfr.2.2.1] at hFs₃
    exact ⟨ut', hFs₃, rfl, rfl⟩
  · subst hb
    rw [hffr.2.2.1, hcfr.2.2.1] at hFs₃
    exact ⟨ut', hFs₃, rfl, rfl⟩
  · subst hb
    by_cases hk : k = tk
    · subst hk
      rw [Map.find?_insert_self] at hFs₃
      have he := Option.some.injEq .. ▸ hFs₃
      have hFut₀' : (associate_all b i).user_tokens.find? k = some ut₀ := by
        rw [← hcfr.2.2.1, ← hffr.2.2.1]; exact hFut₀
      exact ⟨ut₀, hFut₀', by rw [← he], by rw [← he]⟩
    · rw [Map.find?_insert_ne _ _ _ _ hk] at hFs₃
      rw [hffr.2.2.1, hcfr.2.2.1] at hFs₃
      exact ⟨ut', hFs₃, rfl, rfl⟩

/-- `read_input` preserves duplicate-freeness of all association lists. -/
theorem read_input_preserves_nodup (b : State) (i : RelayerInput) (b' : State)
    (ns : List Notification) (h : read_input b i = some (b', ns))
    (hb : b.assocListsNodup) : b'.assocListsNodup := by
  obtain ⟨ha₁, ha₂, ha₃⟩ := associate_all_nodup b i hb
  refine ⟨?_, ?_, ?_⟩
  · intro k uc' hF
    obtain ⟨uc, hFuc, hf, ht⟩ := read_input_trace_clients b i b' ns h k uc' hF
    rw [hf, ht]
    exact ha₁ k uc hFuc
  · intro k uf' hF
    obtain ⟨uf, hFuf, hc, ht⟩ := read_input_trace_froms b i b' ns h k uf' hF
    rw [hc, ht]
    exact ha₂ k uf hFuf
  · intro k ut' hF
    obtain ⟨ut, hFut, hc, hfq⟩ := read_input_trace_tokens b i b' ns h k ut' hF
    rw [hc, hfq]
    exact ha₃ k ut hFut

/-! ### Idempotence of association -/

theorem associate_with_user_client_idem (b : State) (c : IpAddr) (f : Address)
    (t : Option Token) :
    associate_with_user_client (associate_with_user_client b c f t) c f t =
      associate_with_user_client b c f t := by
  unfold associate_with_user_client
  simp only [Map.find?_insert_self, Option.getD_some]
  rcases t with _ | tok
  · by_cases h1 : f ∈ ((b.user_clients.find? c).getD UserClient.default).froms <;>
      simp [h1, Map.insert_insert_self]
  · by_cases h1 : f ∈ ((b.user_clients.find? c).getD UserClient.default).froms <;>
      by_cases h2 : tok ∈ ((b.user_clients.find? c).getD UserClient.default).tokens <;>
      simp [h1, h2, Map.insert_insert_self]

theorem associate_with_user_from_idem (b : State) (f : Address) (c : IpAddr)
    (t : Option Token) :
    associate_with_user_from (associate_with_user_from b f c t) f c t =
      associate_with_user_from b f c t := by
  unfold associate_with_user_from
  simp only [Map.find?_insert_self, Option.getD_some]
  rcases t with _ | tok
  · by_cases h1 : c ∈ ((b.user_froms.find? f).getD UserFrom.default).clients <;>
      simp [h1, Map.insert_insert_self]
  · by_cases h1 : c ∈ ((b.user_froms.find? f).getD UserFrom.default).clients <;>
      by_cases h2 : tok ∈ ((b.user_froms.find? f).getD UserFrom.default).tokens <;>
      simp [h1, h2, Map.insert_insert_self]

theorem associate_with_user_token_idem (b : State) (t : Token) (c : IpAddr)
    (f : Address) :
    associate_with_user_token (associate_with_user_token b t c f) t c f =
      associate_with_user_token b t c f := by
  unfold associate_with_user_token
  simp only [Map.find?_insert_self, Option.getD_some]
  by_cases h1 : c ∈ ((b.user_tokens.find? t).getD UserToken.default).clients <;>
    by_cases h2 : f ∈ ((b.user_tokens.find? t).getD UserToken.default).froms <;>
    simp [h1, h2, Map.insert_insert_self]

/-! ## Claims -/

/-- C1 (counterexample): under `cfgA` the first event bans client 0;
the next event referencing client 0 re-creates an active-registry entry
for it via `entry().or_insert_with(default)`, so client 0 is present in
the active registry AND in the ban store simultaneously — refuting
"each identity is present in exactly one of the active registry and the
ban store at any time". -/
theorem C1_counterexample :
    ((read_input stA1 evA2).map
        (fun p => (p.1.user_clients.contains 0, p.1.ban_list.clients.contains 0))) =
      some (true, true) := by
  decide

/-- C1 (amended): the registry→ban-store move is one-directional — no
`read_input` call (or `tick`) ever removes a ban-store entry — but an
event referencing an already-banned client re-creates a fresh
active-registry entry for it, so a banned identity can be present in
both tables at once. -/
theorem C1_amended (b : State) (i : RelayerInput) (b' : State) (ns : List Notification)
    (h : read_input b i = some (b', ns)) :
    (∀ k, b.ban_list.clients.contains k = true → b'.ban_list.clients.contains k = true) ∧
    (∀ k, b.ban_list.froms.contains k = true → b'.ban_list.froms.contains k = true) ∧
    (∀ k, b.ban_list.tokens.contains k = true → b'.ban_list.tokens.contains k = true) ∧
    (∀ elapsed, (tick b elapsed).ban_list = b.ban_list) ∧
    (b.ban_list.clients.contains i.client = true →
      b'.user_clients.contains i.client = true) := by
  obtain ⟨m1, m2, m3⟩ := read_input_ban_list_mono b i b' ns h
  exact ⟨m1, m2, m3, fun e => (tick_frame b e).2.2.1,
    fun hc => (read_input_client_banned_before b i b' ns h hc).2⟩

/-- C1 (witness): concrete run applying `C1_amended` after the ban of
client 0. -/
theorem C1_witness :
    stA2.user_clients.contains 0 = true ∧ stA2.ban_list.clients.contains 0 = true :=
  ⟨(C1_amended stA1 evA2 stA2 nsA2 (by rfl)).2.2.2.2 (by decide),
   (C1_amended stA1 evA2 stA2 nsA2 (by rfl)).1 0 (by decide)⟩

/-- C2: on `Revert(msg)` the threshold evaluator appends `msg` to the
revert list, leaves every counter unchanged, and bans exactly when the
max-gas counter (not the revert-list length) reaches the revert
threshold, multiplied by the token multiplier when a token is present. -/
theorem C2_revert_policy (p : BanProgress) (cfg : Config) (token : Option Token)
    (msg : String) :
    (check_error_ban p cfg token (some (TransactionError.Revert msg))).1.revert =
      p.revert ++ [msg] ∧
    (check_error_ban p cfg token (some (TransactionError.Revert msg))).1.max_gas =
      p.max_gas ∧
    (check_error_ban p cfg token (some (TransactionError.Revert msg))).1.incorrect_nonce =
      p.incorrect_nonce ∧
    (check_error_ban p cfg token (some (TransactionError.Revert msg))).1.excessive_gas =
      p.excessive_gas ∧
    ((check_error_ban p cfg token (some (TransactionError.Revert msg))).2 = true ↔
      p.max_gas ≥ (if token.isSome then cfg.revert_threshold * cfg.token_multiplier
                   else cfg.revert_threshold)) := by
  refine ⟨rfl, rfl, rfl, rfl, ?_⟩
  simp [check_error_ban]

/-- C3: on each axis not yet banned, the identity enters the ban store on
this event exactly when the counter relevant to the violation kind — after
this event's update, per the §4.2 policy table including the
revert-via-max-gas coupling — reaches its effective threshold; events with
no violation signal or with a relayer-internal error never change the ban
store. -/
theorem C3_ban_iff (b : State) (i : RelayerInput) (b' : State) (ns : List Notification)
    (h : read_input b i = some (b', ns)) :
    (b.ban_list.clients.contains i.client = false →
      (b'.ban_list.clients.contains i.client = true ↔
        relevantCounterReaches (clientEntryBefore b i.client).ban_progress b.config
          i.token.isSome i.error = true)) ∧
    (b.ban_list.froms.contains i.params.fromAddr = false →
      (b'.ban_list.froms.contains i.params.fromAddr = true ↔
        relevantCounterReaches (fromEntryBefore b i.params.fromAddr).ban_progress b.config
          i.token.isSome i.error = true)) ∧
    (∀ tok, i.token = some tok → b.ban_list.tokens.contains tok = false →
      (b'.ban_list.tokens.contains tok = true ↔
        relevantCounterReaches (tokenEntryBefore b tok).ban_progress b.config
          true i.error = true)) ∧
    (i.error = none → b'.ban_list = b.ban_list) ∧
    (∀ s, i.error = some (TransactionError.Relayer s) → b'.ban_list = b.ban_list) := by
  refine ⟨?_, ?_, ?_, ?_, ?_⟩
  · intro hc
    have hnb := read_input_client_not_banned b i b' ns h hc
    rw [← check_error_ban_flag]
    rcases hfl : (check_error_ban (clientEntryBefore b i.client).ban_progress b.config
        i.token i.error).2
    · have hsame : b'.ban_list.clients.contains i.client = false := by
        rw [hnb.2 hfl]; exact hc
      simp [hsame, hfl]
    · obtain ⟨_, hfind, _⟩ := hnb.1 hfl
      have hcontains : b'.ban_list.clients.contains i.client = true := by
        rcases hF : b'.ban_list.clients.find? i.client with _ | u
        · rw [hF] at hfind; simp at hfind
        · simp [Map.contains, hF]
      simp [hcontains, hfl]
  · intro hf
    have hnb := read_input_from_not_banned b i b' ns h hf
    rw [← check_error_ban_flag]
    rcases hfl : (check_error_ban (fromEntryBefore b i.params.fromAddr).ban_progress b.config
        i.token i.error).2
    · have hsame : b'.ban_list.froms.contains i.params.fromAddr = false := by
        rw [hnb.2 hfl]; exact hf
      simp [hsame, hfl]
    · obtain ⟨_, hfind, _⟩ := hnb.1 hfl
      have hcontains : b'.ban_list.froms.contains i.params.fromAddr = true := by
        rcases hF : b'.ban_list.froms.find? i.params.fromAddr with _ | u
        · rw [hF] at hfind; simp at hfind
        · simp [Map.contains, hF]
      simp [hcontains, hfl]
  · intro tok htok hcont
    have hnb := read_input_token_not_banned b i b' ns tok h htok hcont
    have hflag : (check_error_ban (tokenEntryBefore b tok).ban_progress b.config
          (some tok) i.error).2 =
        relevantCounterReaches (tokenEntryBefore b tok).ban_progress b.config
          true i.error :=
      check_error_ban_flag (tokenEntryBefore b tok).ban_progress b.config (some tok) i.error
    rw [← hflag]
    rcases hfl : (check_error_ban (tokenEntryBefore b tok).ban_progress b.config
        (some tok) i.error).2
    · have hsame : b'.ban_list.tokens.contains tok = false := by
        rw [hnb.2 hfl]; exact hcont
      simp [hsame, hfl]
    · obtain ⟨_, hfind, _⟩ := hnb.1 hfl
      have hcontains : b'.ban_list.tokens.contains tok = true := by
        rcases hF : b'.ban_list.tokens.find? tok with _ | u
        · rw [hF] at hfind; simp at hfind
        · simp [Map.contains, hF]
      simp [hcontains, hfl]
  · intro he
    exact read_input_no_signal b i b' ns h (Or.inl he)
  · intro s hs
    exact read_input_no_signal b i b' ns h (Or.inr ⟨s, hs⟩)

/-- C3 (witness): a concrete banning event instantiating `C3_ban_iff`. -/
theorem C3_witness :
    stA1.ban_list.clients.contains evA1.client = true ↔
      relevantCounterReaches (clientEntryBefore (new cfgA) evA1.client).ban_progress
        (new cfgA).config evA1.token.isSome evA1.error = true :=
  (C3_ban_iff (new cfgA) evA1 stA1 nsA1 (by rfl)).1 (by decide)

/-- C4: for every violation kind, the evaluator bans exactly when the
relevant updated counter reaches `effectiveThreshold base multiplier
tokenPresent`, which is `base × token multiplier` when a token identity
is present and `base` otherwise — for any token argument, hence on the
client and sender axes (event token) as well as the token axis. -/
theorem C4_effective_threshold (p : BanProgress) (cfg : Config) (token : Option Token)
    (msg : String) :
    ((check_error_ban p cfg token (some TransactionError.ErrIncorrectNonce)).2 = true ↔
      p.incorrect_nonce + 1 ≥
        effectiveThreshold cfg.incorrect_nonce_threshold cfg.token_multiplier token.isSome) ∧
    ((check_error_ban p cfg token (some TransactionError.MaxGas)).2 = true ↔
      p.max_gas + 1 ≥
        effectiveThreshold cfg.max_gas_threshold cfg.token_multiplier token.isSome) ∧
    ((check_error_ban p cfg token (some (TransactionError.Revert msg))).2 = true ↔
      p.max_gas ≥
        effectiveThreshold cfg.revert_threshold cfg.token_multiplier token.isSome) := by
  refine ⟨?_, ?_, ?_⟩ <;> simp [check_error_ban, effectiveThreshold]

/-- C5 (counterexample): the record moved into the ban store is never
tagged with a `BanKind` — its `banned` field stays `none` after a ban —
refuting "tags the stored record with the triggering Ban reason". -/
theorem C5_counterexample :
    ((read_input (new cfgA) evA1).map
        (fun p => (p.1.ban_list.clients.find? 0).map (fun uc => uc.banned))) =
      some (some none) := by
  decide

/-- C5 (amended): when an axis's threshold decision is positive,
`read_input` removes the entry from the active registry, stores it under
the same key in the ban store with its `banned` tag left unchanged (no
`BanKind` is attached), and emits a notification naming the identity and
the triggering error. -/
theorem C5_amended (b : State) (i : RelayerInput) (b' : State) (ns : List Notification)
    (h : read_input b i = some (b', ns)) :
    (b.ban_list.clients.contains i.client = false →
      b'.ban_list.clients.contains i.client = true →
      b'.user_clients.contains i.client = false ∧
      (b'.ban_list.clients.find? i.client).map (fun uc => uc.banned) =
        some (clientEntryBefore b i.client).banned ∧
      ∃ e, i.error = some e ∧ Notification.bannedClient i.client e ∈ ns) ∧
    (b.ban_list.froms.contains i.params.fromAddr = false →
      b'.ban_list.froms.contains i.params.fromAddr = true →
      b'.user_froms.contains i.params.fromAddr = false ∧
      (b'.ban_list.froms.find? i.params.fromAddr).map (fun uf => uf.banned) =
        some (fromEntryBefore b i.params.fromAddr).banned ∧
      ∃ e, i.error = some e ∧ Notification.bannedFrom i.params.fromAddr e ∈ ns) ∧
    (∀ tok, i.token = some tok → b.ban_list.tokens.contains tok = false →
      b'.ban_list.tokens.contains tok = true →
      b'.user_tokens.contains tok = false ∧
      (b'.ban_list.tokens.find? tok).map (fun ut => ut.banned) =
        some (tokenEntryBefore b tok).banned ∧
      ∃ e, i.error = some e ∧ Notification.bannedToken tok e ∈ ns) := by
  refine ⟨?_, ?_, ?_⟩
  · intro hc hb'
    have hnb := read_input_client_not_banned b i b' ns h hc
    rcases hfl : (check_error_ban (clientEntryBefore b i.client).ban_progress b.config
        i.token i.error).2
    · rw [hnb.2 hfl] at hb'
      rw [hc] at hb'
      cases hb'
    · obtain ⟨hrm, hfind, he⟩ := hnb.1 hfl
      refine ⟨hrm, ?_, he⟩
      rcases hF : b'.ban_list.clients.find? i.client with _ | u
      · rw [hF] at hfind; simp at hfind
      · rw [hF] at hfind
        simp only [Option.map_some'] at hfind
        have hban := (Prod.mk.injEq .. ▸ Option.some.injEq .. ▸ hfind).2
        simp [hF, hban]
  · intro hf hb'
    have hnb := read_input_from_not_banned b i b' ns h hf
    rcases hfl : (check_error_ban (fromEntryBefore b i.params.fromAddr).ban_progress b.config
        i.token i.error).2
    · rw [hnb.2 hfl] at hb'
      rw [hf] at hb'
      cases hb'
    · obtain ⟨hrm, hfind, he⟩ := hnb.1 hfl
      refine ⟨hrm, ?_, he⟩
      rcases hF : b'.ban_list.froms.find? i.params.fromAddr with _ | u
      · rw [hF] at hfind; simp at hfind
      · rw [hF] at hfind
        simp only [Option.map_some'] at hfind
        have hban := (Prod.mk.injEq .. ▸ Option.some.injEq .. ▸ hfind).2
        simp [hF, hban]
  · intro tok htok hcont hb'
    have hnb := read_input_token_not_banned b i b' ns tok h htok hcont
    rcases hfl : (check_error_ban (tokenEntryBefore b tok).ban_progress b.config
        (some tok) i.error).2
    · rw [hnb.2 hfl] at hb'
      rw [hcont] at hb'
      cases hb'
    · obtain ⟨hrm, hfind, he⟩ := hnb.1 hfl
      refine ⟨hrm, ?_, he⟩
      rcases hF : b'.ban_list.tokens.find? tok with _ | u
      · rw [hF] at hfind; simp at hfind
      · rw [hF] at hfind
        simp only [Option.map_some'] at hfind
        have hban := (Prod.mk.injEq .. ▸ Option.some.injEq .. ▸ hfind).2
        simp [hF, hban]

/-- C5 (witness): concrete banning run instantiating `C5_amended` on the
client axis. -/
theorem C5_witness :
    stA1.user_clients.contains evA1.client = false ∧
    (stA1.ban_list.clients.find? evA1.client).map (fun uc => uc.banned) =
      some (clientEntryBefore (new cfgA) evA1.client).banned ∧
    ∃ e, evA1.error = some e ∧ Notification.bannedClient evA1.client e ∈ nsA1 :=
  (C5_amended (new cfgA) evA1 stA1 nsA1 (by rfl)).1 (by decide) (by decide)

/-- C6 (counterexample): with deadline `next_check = 60`, a `tick` at
elapsed exactly 60 — the decay interval fully elapsed — performs no
reset (the incorrect-nonce counter stays 1), refuting "tick called at or
after the interval has elapsed resets the client-axis counters". -/
theorem C6_counterexample :
    ((tick stB 60).user_clients.find? 0).map (fun uc => uc.ban_progress.incorrect_nonce) =
      some 1 ∧ stB.next_check = 60 := by
  constructor <;> decide

/-- C6 (amended): `tick` at or before the deadline is a no-op; strictly
after the deadline it resets every client entry's progress and advances
the deadline by exactly one timeframe (`next_check + timeframe`, not the
current time), so one call performs at most one reset. -/
theorem C6_amended (b : State) (elapsed : Nat) :
    (elapsed ≤ b.next_check → tick b elapsed = b) ∧
    (b.next_check < elapsed →
      (tick b elapsed).next_check = b.next_check + b.config.timeframe ∧
      ∀ k, (tick b elapsed).user_clients.find? k =
        (b.user_clients.find? k).map
          (fun uc => { uc with ban_progress := BanProgress.default })) := by
  constructor
  · intro hle
    exact tick_no_reset b elapsed hle
  · intro hlt
    obtain ⟨h1, _, _, _, _, h6⟩ := tick_reset b elapsed hlt
    exact ⟨h1, h6⟩

/-- C6 (witness): concrete instantiation of `C6_amended` at, and just
after, the deadline. -/
theorem C6_witness :
    tick stB 60 = stB ∧
    (tick stB 61).next_check = stB.next_check + stB.config.timeframe ∧
    (tick stB 61).user_clients.find? 0 =
      (stB.user_clients.find? 0).map
        (fun uc => { uc with ban_progress := BanProgress.default }) :=
  ⟨(C6_amended stB 60).1 (by decide),
   ((C6_amended stB 61).2 (by decide)).1,
   ((C6_amended stB 61).2 (by decide)).2 0⟩

/-- C7: `tick` never touches the sender table, the token table or the ban
store; when it resets, every active client entry keeps its associations
and ban tag but has all per-kind counters zeroed and its revert list
emptied (`BanProgress.default`). -/
theorem C7_tick_frame_reset (b : State) (elapsed : Nat) :
    (tick b elapsed).user_froms = b.user_froms ∧
    (tick b elapsed).user_tokens = b.user_tokens ∧
    (tick b elapsed).ban_list = b.ban_list ∧
    (b.next_check < elapsed →
      ∀ k uc, b.user_clients.find? k = some uc →
        (tick b elapsed).user_clients.find? k =
          some { uc with ban_progress := BanProgress.default }) := by
  obtain ⟨h1, h2, h3, _⟩ := tick_frame b elapsed
  refine ⟨h1, h2, h3, ?_⟩
  intro hlt k uc hF
  have hm := (tick_reset b elapsed hlt).2.2.2.2.2 k
  rw [hF] at hm
  simpa using hm

/-- C7 (witness): concrete instantiation of `C7_tick_frame_reset` on the
state after one non-banning event. -/
theorem C7_witness :
    (tick stB 61).user_froms = stB.user_froms ∧
    (tick stB 61).ban_list = stB.ban_list ∧
    (tick stB 61).user_clients.find? 0 =
      some { ucB with ban_progress := BanProgress.default } :=
  ⟨(C7_tick_frame_reset stB 61).1, (C7_tick_frame_reset stB 61).2.2.1,
   (C7_tick_frame_reset stB 61).2.2.2 (by decide) 0 ucB (by rfl)⟩

/-- C8: once an identity is in a ban-store table, any further event
referencing it leaves its stored record unchanged, and `ban_progression`
returns `false` for any axis whose key is already in the ban list. -/
theorem C8_banned_frozen (b : State) (i : RelayerInput) (b' : State)
    (ns : List Notification) (h : read_input b i = some (b', ns)) :
    (b.ban_list.clients.contains i.client = true →
      b'.ban_list.clients.find? i.client = b.ban_list.clients.find? i.client) ∧
    (b.ban_list.froms.contains i.params.fromAddr = true →
      b'.ban_list.froms.find? i.params.fromAddr = b.ban_list.froms.find? i.params.fromAddr) ∧
    (∀ tok, i.token = some tok → b.ban_list.tokens.contains tok = true →
      b'.ban_list.tokens.find? tok = b.ban_list.tokens.find? tok) ∧
    (∀ u tok err b₃ c f t, ban_progression b u tok err = some (b₃, c, f, t) →
      (b.ban_list.clients.contains u.client = true → c = false) ∧
      (b.ban_list.froms.contains u.fromAddr = true → f = false) ∧
      (∀ tk, tok = some tk → b.ban_list.tokens.contains tk = true → t = false)) := by
  refine ⟨?_, ?_, ?_, ?_⟩
  · intro hc
    rw [(read_input_client_banned_before b i b' ns h hc).1]
  · intro hf
    rw [(read_input_from_banned_before b i b' ns h hf).1]
  · intro tok htok htb
    rw [(read_input_token_banned_before b i b' ns tok h htok htb).1]
  · intro u tok err b₃ c f t hbp
    exact ban_progression_skips_banned b u tok err b₃ c f t hbp

/-- C8 (witness): after client 0 is banned, a further event leaves its
ban-store record untouched. -/
theorem C8_witness :
    stA2.ban_list.clients.find? 0 = stA1.ban_list.clients.find? 0 :=
  (C8_banned_frozen stA1 evA2 stA2 nsA2 (by rfl)).1 (by decide)

/-- C9 (counterexample): with incorrect-nonce threshold 0 the very first
incorrect-nonce event bans client 0 — a zero threshold does not disable
the violation kind, refuting "no identity is ever banned for that kind
while its base threshold is zero". -/
theorem C9_counterexample :
    ((read_input (new cfgZ) evA1).map (fun p => p.1.ban_list.clients.contains 0)) =
      some true := by
  decide

/-- C9 (amended): a zero base threshold makes every violation of that
kind ban immediately — the decision is `counter ≥ 0`, which always holds
(and `0 × multiplier = 0`, so a token changes nothing). -/
theorem C9_amended (p : BanProgress) (cfg : Config) (token : Option Token) (msg : String) :
    (cfg.incorrect_nonce_threshold = 0 →
      (check_error_ban p cfg token (some TransactionError.ErrIncorrectNonce)).2 = true) ∧
    (cfg.max_gas_threshold = 0 →
      (check_error_ban p cfg token (some TransactionError.MaxGas)).2 = true) ∧
    (cfg.revert_threshold = 0 →
      (check_error_ban p cfg token (some (TransactionError.Revert msg))).2 = true) := by
  refine ⟨?_, ?_, ?_⟩ <;> intro h0 <;> simp [check_error_ban, h0]

/-- C9 (witness): concrete instantiation of `C9_amended` under `cfgZ`. -/
theorem C9_witness :
    (check_error_ban BanProgress.default cfgZ none
      (some TransactionError.ErrIncorrectNonce)).2 = true :=
  (C9_amended BanProgress.default cfgZ none "").1 (by rfl)

/-- C10: duplicate-freeness of every cross-reference list in every
registry entry is preserved by every `read_input` call, and re-observing
an existing association is idempotent — re-running any associate
function with the same identities leaves the state unchanged. -/
theorem C10_assoc_nodup :
    (∀ b i b' ns, State.assocListsNodup b → read_input b i = some (b', ns) →
      State.assocListsNodup b') ∧
    (∀ b c f t, associate_with_user_client (associate_with_user_client b c f t) c f t =
      associate_with_user_client b c f t) ∧
    (∀ b f c t, associate_with_user_from (associate_with_user_from b f c t) f c t =
      associate_with_user_from b f c t) ∧
    (∀ b t c f, associate_with_user_token (associate_with_user_token b t c f) t c f =
      associate_with_user_token b t c f) :=
  ⟨fun b i b' ns hb h => read_input_preserves_nodup b i b' ns h hb,
   associate_with_user_client_idem, associate_with_user_from_idem,
   associate_with_user_token_idem⟩

/-- C10 (witness): the invariant holds after a concrete event processed
from the empty initial state. -/
theorem C10_witness : State.assocListsNodup stA1 :=
  C10_assoc_nodup.1 (new cfgA) evA1 stA1 nsA1
    ⟨fun k u hF => by simp [new, Map.find?] at hF,
     fun k u hF => by simp [new, Map.find?] at hF,
     fun k u hF => by simp [new, Map.find?] at hF⟩
    (by rfl)

end Banhammer
